import Mathlib

/-!
# vue-charts: the loader, the property binder and the chart life cycle

A shallow embedding of `dist/vue-charts.common.js` (vue-charts v0.0.5).

* JavaScript values are the inductive type `JSVal`; the lodash predicates the
  source calls (`_.isEmpty`, `_.isObjectLike`, `_.isObject`, `_.isNull`,
  `_.each`) are functions on it.
* The module-level loader (`is_loading`, `is_loaded`, `google_promise`,
  `loadCharts`) is a state `Loader` and a step function over the events that can
  reach it: a `loadCharts` call, the script element's load handler, the callback
  Google runs once the packages are loaded, and a failed load.
* A component instance is a state `Instance`; the charting library is modelled
  at its interface: every call the instance makes is recorded, in order, in
  `Instance.calls`, and the data table is a list of columns and a list of rows.
* The `ready` hook is a promise chain; `Page` runs it step by step.
-/

namespace VueCharts

/-! ## JavaScript values and the lodash helpers -/

/-- A JavaScript value. `func name own` is a function object (a constructor such
as `Array`, or a callback) with its own enumerable properties. Numbers are
integers here: the program never computes with a number. -/
inductive JSVal where
  | undefined
  | null
  | bool (b : Bool)
  | num (n : Int)
  | str (s : String)
  | arr (items : List JSVal)
  | obj (fields : List (String × JSVal))
  | func (name : String) (own : List (String × JSVal))

namespace JSVal

/-- The lodash test `_.isNull`. -/
def isNull : JSVal → Bool
  | .null => true
  | _ => false

/-- The lodash test `_.isObjectLike`: not null and `typeof value == 'object'`. -/
def isObjectLike : JSVal → Bool
  | .arr _ => true
  | .obj _ => true
  | _ => false

/-- The lodash test `_.isObject`: not null and `typeof value` is `'object'` or
`'function'`. -/
def isObject : JSVal → Bool
  | .arr _ => true
  | .obj _ => true
  | .func _ _ => true
  | _ => false

/-- The lodash test `_.isEmpty`: `null`/`undefined` are empty, an array-like
value (array, string) is empty when its length is zero, any other value is
empty when it has no own enumerable property. -/
def isEmpty : JSVal → Bool
  | .undefined => true
  | .null => true
  | .bool _ => true
  | .num _ => true
  | .str s => s.data.isEmpty
  | .arr items => items.isEmpty
  | .obj fields => fields.isEmpty
  | .func _ own => own.isEmpty

/-- The values `_.each(collection, callback)` hands to its callback, in order:
the elements of an array-like value, the own property values of an object. The
callbacks of this program return nothing, so the iteration never stops early. -/
def eachValues : JSVal → List JSVal
  | .arr items => items
  | .str s => s.data.map fun c => .str (String.singleton c)
  | .obj fields => fields.map Prod.snd
  | .func _ own => own.map Prod.snd
  | _ => []

/-- The (value, key) pairs `_.each(object, callback)` hands to its callback. -/
def eachEntries : JSVal → List (JSVal × String)
  | .obj fields => fields.map fun kv => (kv.2, kv.1)
  | .func _ own => own.map fun kv => (kv.2, kv.1)
  | .arr items => items.enum.map fun iv => (iv.2, toString iv.1)
  | .str s => s.data.enum.map fun ic => (.str (String.singleton ic.2), toString ic.1)
  | _ => []

/-- Property read `value.key`: the property of an object, `undefined` when it
is missing. -/
def getProp (key : String) : JSVal → JSVal
  | .obj fields => ((fields.find? fun kv => kv.1 == key).map Prod.snd).getD .undefined
  | .func _ own => ((own.find? fun kv => kv.1 == key).map Prod.snd).getD .undefined
  | _ => .undefined

end JSVal

/-! ## The loader (`loadCharts`) -/

/-- State of a promise. -/
inductive PromiseState where
  | pending
  | resolved
  | rejected
  deriving DecidableEq, Repr

/-- The `resolve` function handed out by `makeDeferred`: settles a pending
promise, and does nothing to a settled one. -/
def PromiseState.resolve : PromiseState → PromiseState
  | .pending => .resolved
  | p => p

/-- The `reject` function handed out by `makeDeferred`. -/
def PromiseState.reject : PromiseState → PromiseState
  | .pending => .rejected
  | p => p

/-- The promise of `makeDeferred()`: pending until `resolve` or `reject` is
called from outside. -/
def makeDeferred : PromiseState := .pending

/-- A script element created by `loadCharts`, with the arguments its load
handler has captured. -/
structure ScriptElement where
  packages : JSVal
  version : JSVal

/-- The module-level variables of the loader, and what the loader has done to
the document and to Google's loader. -/
structure Loader where
  is_loading : Bool
  is_loaded : Bool
  google_promise : PromiseState
  /-- Script elements appended to the document head, in order. -/
  head : List ScriptElement
  /-- The calls `google.charts.load(version, { packages })`, as (version, packages). -/
  loadCalls : List (JSVal × JSVal)
  /-- Callbacks registered through `google.charts.setOnLoadCallback`, not yet run. -/
  onLoadCallbacks : Nat

/-- The module state right after the module is evaluated. -/
def Loader.init : Loader :=
  { is_loading := false, is_loaded := false, google_promise := makeDeferred,
    head := [], loadCalls := [], onLoadCallbacks := 0 }

/-- What can happen to the loader. -/
inductive LoaderEvent where
  /-- A call `loadCharts(packages, version)`. -/
  | call (packages version : JSVal)
  /-- The `i`-th inserted script fires `onload` (or `onreadystatechange`). -/
  | scriptLoaded (i : Nat)
  /-- Google runs one callback registered with `setOnLoadCallback`. -/
  | googleLoaded
  /-- The script or the Google Charts load fails. -/
  | loadFailed

/-- The function `loadCharts(packages, version)` (source lines 37-66); the
promise it returns is always `google_promise`. -/
def loadCharts (packages version : JSVal) (l : Loader) : Loader :=
  if l.is_loading || l.is_loaded then l
  else { l with is_loading := true, head := l.head ++ [⟨packages, version⟩] }

/-- The handler `script.onreadystatechange = script.onload` of a script (source
lines 49-60), up to the registration of the callback. -/
def scriptOnload (sc : ScriptElement) (l : Loader) : Loader :=
  { l with loadCalls := l.loadCalls ++ [(sc.version, sc.packages)],
           onLoadCallbacks := l.onLoadCallbacks + 1 }

/-- The callback given to `google.charts.setOnLoadCallback` (source lines 55-59). -/
def onLoadCallback (l : Loader) : Loader :=
  { l with is_loading := false, is_loaded := true,
           google_promise := l.google_promise.resolve }

/-- One event on the loader. A handler that was never installed cannot run; the
source installs no error handler, so a failed load runs no code. -/
def Loader.step (l : Loader) : LoaderEvent → Loader
  | .call packages version => loadCharts packages version l
  | .scriptLoaded i =>
    match l.head[i]? with
    | some sc => scriptOnload sc l
    | none => l
  | .googleLoaded =>
    match l.onLoadCallbacks with
    | 0 => l
    | n + 1 => onLoadCallback { l with onLoadCallbacks := n }
  | .loadFailed => l

/-- The loader after a sequence of events. -/
def Loader.run (l : Loader) (evs : List LoaderEvent) : Loader :=
  evs.foldl Loader.step l

/-- Whether an event is a `loadCharts` call. -/
def LoaderEvent.isCall : LoaderEvent → Bool
  | .call _ _ => true
  | _ => false

/-- Whether an event is the run of a callback that Google calls once the
packages are loaded. -/
def LoaderEvent.isGoogleLoaded : LoaderEvent → Bool
  | .googleLoaded => true
  | _ => false

/-- A sequence of events in which the arguments of every `loadCharts` call after
the first are replaced by `undefined` (`seen` tells whether a call came before). -/
def eraseLaterArgs : Bool → List LoaderEvent → List LoaderEvent
  | _, [] => []
  | seen, .call packages version :: rest =>
    (if seen then LoaderEvent.call .undefined .undefined else .call packages version)
      :: eraseLaterArgs true rest
  | seen, .scriptLoaded i :: rest => .scriptLoaded i :: eraseLaterArgs seen rest
  | seen, .googleLoaded :: rest => .googleLoaded :: eraseLaterArgs seen rest
  | seen, .loadFailed :: rest => .loadFailed :: eraseLaterArgs seen rest

/-- The arguments of the first `loadCharts` call of a sequence, in the order
`google.charts.load` takes them: (version, packages). -/
def firstCall : List LoaderEvent → Option (JSVal × JSVal)
  | [] => none
  | .call packages version :: _ => some (version, packages)
  | _ :: rest => firstCall rest

/-! ## The charting library, at its interface -/

/-- A `google.visualization.DataTable`: its column descriptors and its rows, in
order. The library's own validation of the values it is given is not modelled:
every operation succeeds. -/
structure DataTable where
  columns : List JSVal
  rows : List JSVal

namespace DataTable

/-- The table made by `new google.visualization.DataTable()`. -/
def new : DataTable := { columns := [], rows := [] }

/-- The library call `getNumberOfRows()`. -/
def getNumberOfRows (t : DataTable) : Nat := t.rows.length

/-- The library call `getNumberOfColumns()`. -/
def getNumberOfColumns (t : DataTable) : Nat := t.columns.length

/-- The library call `addColumn(descriptor)`: one more column, at the end. -/
def addColumn (v : JSVal) (t : DataTable) : DataTable :=
  { t with columns := t.columns ++ [v] }

/-- The library call `addRows(rows)`: the rows of an array are added at the end,
in order. What the library does with another argument is not modelled: no row
is added. -/
def addRows (v : JSVal) (t : DataTable) : DataTable :=
  match v with
  | .arr items => { t with rows := t.rows ++ items }
  | _ => t

/-- The library call `removeRows(index, count)`. -/
def removeRows (i n : Nat) (t : DataTable) : DataTable :=
  { t with rows := t.rows.take i ++ t.rows.drop (i + n) }

/-- The cells `i .. i + n - 1` taken out of a row. -/
def removeCells (i n : Nat) : JSVal → JSVal
  | .arr cells => .arr (cells.take i ++ cells.drop (i + n))
  | v => v

/-- The library call `removeColumns(index, count)`: the columns go, and their
cells in every row. -/
def removeColumns (i n : Nat) (t : DataTable) : DataTable :=
  { columns := t.columns.take i ++ t.columns.drop (i + n),
    rows := t.rows.map (removeCells i n) }

end DataTable

/-- A `google.visualization.ChartWrapper` object. -/
structure ChartWrapper where
  chartType : JSVal
  /-- Index of the data table object it was constructed with. -/
  dataTable : Nat
  options : JSVal
  containerId : String
  /-- Number of `draw()` calls so far. -/
  drawCalls : Nat
  /-- The library has finished a drawing: `getChart()` returns the chart. -/
  chartBuilt : Bool
  /-- One-time listeners for the event 'ready', not yet run. -/
  readyOnce : Nat

/-- A call into the charting library. -/
inductive Call where
  | newDataTable (t : Nat)
  | addColumn (t : Nat) (v : JSVal)
  | addRows (t : Nat) (v : JSVal)
  | removeRows (t : Nat) (i n : Nat)
  | removeColumns (t : Nat) (i n : Nat)
  | newChartWrapper (w : Nat) (chartType : JSVal) (dataTable : Nat) (options : JSVal)
      (containerId : String)
  /-- The call `addOneTimeListener(wrapper, 'ready', ...)`. -/
  | addOneTimeListener (w : Nat)
  /-- The call `addListener(wrapper, 'select', ...)`. -/
  | addListener (w : Nat)
  | draw (w : Nat)

namespace Call

/-- Whether the call is `wrapper.draw()`. -/
def isDraw : Call → Bool
  | .draw _ => true
  | _ => false

/-- Whether the call constructs a chart wrapper. -/
def isNewChartWrapper : Call → Bool
  | .newChartWrapper _ _ _ _ _ => true
  | _ => false

/-- Whether the call registers the one-time 'ready' listener. -/
def isAddOneTimeListener : Call → Bool
  | .addOneTimeListener _ => true
  | _ => false

/-- Whether the call registers the 'select' listener. -/
def isAddListener : Call → Bool
  | .addListener _ => true
  | _ => false

/-- Whether the call belongs to the update path: it removes rows or columns. -/
def isRemove : Call → Bool
  | .removeRows _ _ _ => true
  | .removeColumns _ _ _ => true
  | _ => false

end Call

/-! ## The component instance -/

/-- The reactive inputs of the component, as they are when a method reads them. -/
structure Props where
  packages : JSVal
  version : JSVal
  chartType : JSVal
  columns : JSVal
  rows : JSVal
  options : JSVal

/-- The value of `self.dataTable`: the empty array it starts as, or a data
table object (by its index in `Instance.tables`). -/
inductive TableSlot where
  | emptyArray
  | table (t : Nat)

/-- An exception thrown by the JavaScript runtime. -/
inductive JSError where
  | typeError (what : String)

/-- A component instance (the fields of `data()`), together with the library
objects it has created and the calls it has made into the library. -/
structure Instance where
  /-- The field `chart`: `null`, or the chart of a wrapper (by the wrapper's index). -/
  chart : Option Nat
  chartId : String
  /-- The field `wrapper`: `null`, or a wrapper (by its index in `wrappers`). -/
  wrapper : Option Nat
  dataTable : TableSlot
  hiddenColumns : List JSVal
  /-- The data table objects created so far. -/
  tables : List DataTable
  /-- The chart wrapper objects created so far. -/
  wrappers : List ChartWrapper
  /-- The calls made into the library, oldest first. -/
  calls : List Call

/-- An outcome of a method: the instance after a normal return, or the error
thrown and the instance as it is at the throw. -/
abbrev Outcome := Except (JSError × Instance) Instance

/-- The function `data()` (source lines 141-155) of the component whose unique
identifier `_uid` is `uid`. -/
def data (uid : Nat) : Instance :=
  { chart := none, chartId := "X" ++ toString uid, wrapper := none,
    dataTable := .emptyArray, hiddenColumns := [],
    tables := [], wrappers := [], calls := [] }

/-- The calls `addColumn` of the loop `_.each(self.columns, ...)`. -/
def addColumnCalls (t : Nat) (columns : JSVal) : List Call :=
  columns.eachValues.map (Call.addColumn t)

/-- The loop `_.each(self.columns, addColumn)` followed by
`if (!_.isEmpty(self.rows)) addRows(self.rows)`, on one table. -/
def fillTable (p : Props) (t : DataTable) : DataTable :=
  let t1 := p.columns.eachValues.foldl (fun acc v => acc.addColumn v) t
  if !p.rows.isEmpty then t1.addRows p.rows else t1

/-- The library calls made by `fillTable` on the table of index `t`. -/
def fillCalls (p : Props) (t : Nat) : List Call :=
  addColumnCalls t p.columns ++ (if !p.rows.isEmpty then [Call.addRows t p.rows] else [])

/-- The method `buildDataTable` (source lines 177-192): returns the index of the
new table. -/
def buildDataTable (p : Props) (s : Instance) : Nat × Instance :=
  let t := s.tables.length
  (t, { s with tables := s.tables ++ [fillTable p DataTable.new],
               calls := s.calls ++ Call.newDataTable t :: fillCalls p t })

/-- The method `updateDataTable` (source lines 198-214). Calling `removeRows` on
the initial `[]` throws a type error. -/
def updateDataTable (p : Props) (s : Instance) : Outcome :=
  match s.dataTable with
  | .emptyArray => .error (.typeError "self.dataTable.removeRows is not a function", s)
  | .table t =>
    let old := (s.tables[t]?).getD DataTable.new
    let nRows := old.getNumberOfRows
    let t1 := old.removeRows 0 nRows
    let nCols := t1.getNumberOfColumns
    let t2 := t1.removeColumns 0 nCols
    .ok { s with tables := s.tables.set t (fillTable p t2),
                 calls := s.calls ++ Call.removeRows t 0 nRows :: Call.removeColumns t 0 nCols
                            :: fillCalls p t }

/-- The method `buildWrapper` (source lines 222-232): returns the index of the
new wrapper. -/
def buildWrapper (chartType : JSVal) (dataTable : Nat) (options : JSVal) (containerId : String)
    (s : Instance) : Nat × Instance :=
  let w := s.wrappers.length
  (w, { s with
          wrappers := s.wrappers ++ [{ chartType := chartType, dataTable := dataTable,
                                       options := options, containerId := containerId,
                                       drawCalls := 0, chartBuilt := false, readyOnce := 0 }],
          calls := s.calls ++ [Call.newChartWrapper w chartType dataTable options containerId] })

/-- The library call `addOneTimeListener(wrapper, 'ready', listener)`. -/
def addOneTimeListener (w : Nat) (s : Instance) : Instance :=
  { s with wrappers := s.wrappers.modify (fun wr => { wr with readyOnce := wr.readyOnce + 1 }) w,
           calls := s.calls ++ [Call.addOneTimeListener w] }

/-- The method `buildChart` (source lines 238-254). The table is built when
`_.isEmpty(self.dataTable)`
holds, which it does for the initial `[]` and not for a data table object (that
carries its own properties). -/
def buildChart (p : Props) (s : Instance) : Instance :=
  let (dataTable, s1) :=
    match s.dataTable with
    | .emptyArray => buildDataTable p s
    | .table t => (t, s)
  let (w, s2) := buildWrapper p.chartType dataTable p.options s1.chartId s1
  let s3 := { s2 with wrapper := some w }
  -- self.dataTable = self.wrapper.getDataTable()
  let s4 := { s3 with
    dataTable := .table (((s3.wrappers[w]?).map ChartWrapper.dataTable).getD dataTable) }
  addOneTimeListener w s4

/-- The test at the top of `drawChart`:
`!_.isEmpty(self.rows) && !_.isObjectLike(self.rows) || _.isEmpty(self.columns)`. -/
def drawAborts (p : Props) : Bool :=
  (!p.rows.isEmpty && !p.rows.isObjectLike) || p.columns.isEmpty

/-- The library call `addListener(self.wrapper, 'select', listener)`. -/
def addSelectListener (s : Instance) : Outcome :=
  match s.wrapper with
  | none => .error (.typeError "addListener on null", s)
  | some w => .ok { s with calls := s.calls ++ [Call.addListener w] }

/-- The call `self.wrapper.draw()`. -/
def wrapperDraw (s : Instance) : Outcome :=
  match s.wrapper with
  | none => .error (.typeError "self.wrapper is null", s)
  | some w =>
    .ok { s with wrappers := s.wrappers.modify (fun wr => { wr with drawCalls := wr.drawCalls + 1 }) w,
                 calls := s.calls ++ [Call.draw w] }

/-- The method `drawChart` (source lines 260-284). -/
def drawChart (p : Props) (s : Instance) : Outcome :=
  if drawAborts p then .ok s
  else do
    let s1 ←
      if s.chart.isNone then addSelectListener (buildChart p s)
      else updateDataTable p s
    wrapperDraw s1

/-- The call `wrapper.getChart()`: `null` until the wrapper has drawn its chart. -/
def getChart (w : Nat) (s : Instance) : Option Nat :=
  match s.wrappers[w]? with
  | some wr => if wr.chartBuilt then some w else none
  | none => none

/-- The listener registered in `buildChart`:
`self.chart = self.wrapper.getChart()`. -/
def readyListener (s : Instance) : Instance :=
  match s.wrapper with
  | none => s
  | some w => { s with chart := getChart w s }

/-- The library fires 'ready' on the wrapper `w`, which it does only after a
`draw()`: the chart of `w` exists from now on, and the one-time listeners of
`w` run and are removed. -/
def fireReady (w : Nat) (s : Instance) : Instance :=
  match s.wrappers[w]? with
  | none => s
  | some wr =>
    if wr.drawCalls = 0 then s
    else
      let s1 := { s with wrappers :=
        s.wrappers.modify (fun x => { x with chartBuilt := true, readyOnce := 0 }) w }
      if wr.readyOnce = 0 then s1 else readyListener s1

/-- What can happen to an instance once the library is loaded. -/
inductive InstanceEvent where
  /-- A call of `drawChart`, with the reactive inputs as they are then. -/
  | draw (p : Props)
  /-- The library fires 'ready' on a wrapper. -/
  | ready (w : Nat)

/-- The instance an outcome leaves behind. -/
def Outcome.state (o : Outcome) : Instance :=
  match o with
  | .ok s => s
  | .error (_, s) => s

/-- One event on an instance. -/
def Instance.step (s : Instance) : InstanceEvent → Instance
  | .draw p => Outcome.state (drawChart p s)
  | .ready w => fireReady w s

/-- The instance after a sequence of events. -/
def Instance.run (s : Instance) (evs : List InstanceEvent) : Instance :=
  evs.foldl Instance.step s

/-- Number of calls in the log that satisfy a test. -/
def Instance.count (s : Instance) (test : Call → Bool) : Nat :=
  s.calls.countP test

/-! ## The property binder -/

/-- The constructor `Array`. -/
def jsArray : JSVal := .func "Array" []

/-- The constructor `String`. -/
def jsString : JSVal := .func "String" []

/-- The constructor `Object`. -/
def jsObject : JSVal := .func "Object" []

/-- The default of the property `options`. -/
def defaultOptions : JSVal :=
  .obj [("chart", .obj [("title", .str "Chart Title"), ("subtitle", .str "Subtitle")]),
        ("hAxis", .obj [("title", .str "X Label")]),
        ("vAxis", .obj [("title", .str "Y Label")]),
        ("width", .str "400px"),
        ("height", .str "300px"),
        ("animation", .obj [("duration", .num 500), ("easing", .str "out")])]

/-- The object `props` of the module (source lines 84-135). -/
def props : JSVal :=
  .obj [("packages", .obj [("type", jsArray), ("default", .func "_default" [])]),
        ("version", .obj [("default", .str "current"), ("coerce", .func "coerce" [])]),
        ("chartType", .obj [("required", .bool true), ("type", jsString)]),
        ("columns", .obj [("required", .bool true), ("type", jsArray)]),
        ("rows", .obj [("type", jsArray), ("default", .func "_default" [])]),
        ("options", .obj [("type", jsObject), ("default", .func "_default" [])])]

/-- An observer registered with `vue.$watch(attr, callback, { deep })`; the
callback of every observer of this program is `vue.drawChart()`. -/
structure Watcher where
  attr : String
  deep : Bool
  deriving DecidableEq, Repr

/-- The function `propsBinder(vue, props)` (source lines 68-82): the observers it
registers, in order. -/
def propsBinder (watchSpec : JSVal) : List Watcher :=
  watchSpec.eachEntries.map fun entry =>
    let type := entry.1.getProp "type"
    { attr := entry.2, deep := type.isObject }

/-- The statement `delete object.key`. -/
def deleteProp (key : String) : JSVal → JSVal
  | .obj fields => .obj (fields.filter fun kv => kv.1 != key)
  | v => v

/-! ## The mount hook `ready` -/

/-- Where the promise chain of `ready` stands. -/
inductive Boot where
  /-- The hook `ready` has not run. -/
  | unmounted
  /-- The chain waits for the promise of `loadCharts`. -/
  | awaitingLoad
  /-- The callback `self.drawChart` has returned; the binding callback is queued. -/
  | awaitingBind
  /-- The binding callback has run. -/
  | bound
  /-- A callback threw (or the promise was rejected): the rest of the chain is
  skipped and the `catch` handler rethrows. -/
  | failed
  deriving DecidableEq, Repr

/-- What the mount hook is seen to do, and when the load completes. -/
inductive Obs where
  /-- The hook calls `loadCharts`. -/
  | request
  /-- The promise of the loader is resolved. -/
  | loadComplete
  /-- The first `drawChart` call, made by the chain, has returned. -/
  | drawReturned
  /-- The first `drawChart` call, made by the chain, threw. -/
  | drawThrew
  /-- The chain calls `propsBinder`. -/
  | bind
  /-- An observer registered by `propsBinder` calls `drawChart`. -/
  | watcherDraw
  deriving DecidableEq, Repr

/-- A page with the module state and one component instance. -/
structure Page where
  loader : Loader
  vm : Instance
  boot : Boot
  watchers : List Watcher
  history : List Obs

/-- What can happen on the page. -/
inductive PageEvent where
  /-- The framework runs the hook `ready` of the instance. -/
  | mount (p : Props)
  /-- An event of the loader; a `call` is a `loadCharts` call of another component. -/
  | loader (e : LoaderEvent)
  /-- The job queue runs the next callback of the chain if it is due; `p` holds
  the reactive inputs at that time. -/
  | job (p : Props)
  /-- The library fires 'ready' on a wrapper of the instance. -/
  | wrapperReady (w : Nat)
  /-- The reactive input `attr` changes; `p` holds the inputs after it. -/
  | propChanged (attr : String) (p : Props)

/-- The page before the hook has run, for an instance in state `vm`. -/
def Page.init (vm : Instance) : Page :=
  { loader := Loader.init, vm := vm, boot := .unmounted, watchers := [], history := [] }

/-- The hook `ready` (source lines 156-169), up to the point where it returns: it
calls `loadCharts` and hangs the chain on the promise. -/
def ready (p : Props) (pg : Page) : Page :=
  { pg with loader := loadCharts p.packages p.version pg.loader,
            boot := .awaitingLoad,
            history := pg.history ++ [.request] }

/-- The next callback of the chain of `ready`, if it is due: `self.drawChart`
once the promise is resolved, then the callback that calls `propsBinder`. A
callback that throws sends the chain to its `catch` handler. -/
def chainJob (p : Props) (pg : Page) : Page :=
  match pg.boot with
  | .awaitingLoad =>
    match pg.loader.google_promise with
    | .pending => pg
    | .rejected => { pg with boot := .failed }
    | .resolved =>
      match drawChart p pg.vm with
      | .ok vm => { pg with vm := vm, boot := .awaitingBind,
                            history := pg.history ++ [.drawReturned] }
      | .error (_, vm) => { pg with vm := vm, boot := .failed,
                                    history := pg.history ++ [.drawThrew] }
  | .awaitingBind =>
    { pg with watchers := pg.watchers ++ propsBinder (deleteProp "bounds" props),
              boot := .bound,
              history := pg.history ++ [.bind] }
  | _ => pg

/-- One event on the page. -/
def Page.step (pg : Page) : PageEvent → Page
  | .mount p =>
    match pg.boot with
    | .unmounted => ready p pg
    | _ => pg
  | .loader e =>
    let l := pg.loader.step e
    { pg with loader := l,
              history := pg.history ++
                (if pg.loader.google_promise = .pending ∧ l.google_promise = .resolved
                 then [.loadComplete] else []) }
  | .job p => chainJob p pg
  | .wrapperReady w => { pg with vm := fireReady w pg.vm }
  | .propChanged attr p =>
    if pg.watchers.any (fun w => w.attr == attr) then
      { pg with vm := Outcome.state (drawChart p pg.vm),
                history := pg.history ++ [.watcherDraw] }
    else pg

/-- The page after a sequence of events. -/
def Page.run (pg : Page) (evs : List PageEvent) : Page :=
  evs.foldl Page.step pg

/-- Whether a page event completes the load: it is the run of a callback that
Google calls once the packages are loaded. -/
def PageEvent.isGoogleLoaded : PageEvent → Bool
  | .loader .googleLoaded => true
  | _ => false

/-- The invariant of the loader: there is one script in the head when a flag is
set, and neither a script nor a registered callback when none is. -/
def Loader.Consistent (l : Loader) : Prop :=
  ((l.is_loading || l.is_loaded) = true → l.head.length = 1) ∧
  ((l.is_loading || l.is_loaded) = false →
    l.head = [] ∧ l.onLoadCallbacks = 0 ∧ l.loadCalls = [] ∧ l.google_promise = .pending)

/-- The value of a string of decimal digits, read from the left with `acc` as
the value so far. -/
def decimalValue (acc : Nat) (cs : List Char) : Nat :=
  cs.foldl (fun a c => a * 10 + (c.toNat - 48)) acc

/-- Whether the call creates or fills a data table. -/
def Call.isTableFill : Call → Bool
  | .newDataTable _ => true
  | .addColumn _ _ => true
  | .addRows _ _ => true
  | _ => false

/-- The invariant of an instance: a non-null `chart` comes with a wrapper whose
chart the library has built, and a wrapper comes with a data table object. -/
def Instance.Sound (s : Instance) : Prop :=
  (∀ c, s.chart = some c →
    ∃ w wr, s.wrapper = some w ∧ s.wrappers[w]? = some wr ∧ wr.chartBuilt = true) ∧
  (∀ w, s.wrapper = some w → ∃ t, s.dataTable = .table t)

/-- The container id a call hands to the library, if it constructs a wrapper. -/
def Call.containerId? : Call → Option String
  | .newChartWrapper _ _ _ _ containerId => some containerId
  | _ => none

/-- An example of reactive inputs: a line chart with two columns and one row. -/
def lineChartProps : Props :=
  { packages := .arr [.str "corechart"], version := .str "current",
    chartType := .str "LineChart",
    columns := .arr [.obj [("type", .str "string"), ("label", .str "Year")],
                     .obj [("type", .str "number"), ("label", .str "Sales")]],
    rows := .arr [.arr [.str "2004", .num 1000]],
    options := defaultOptions }

/-- An example of reactive inputs: the line chart without its `chartType`. -/
def untypedChartProps : Props := { lineChartProps with chartType := .undefined }

/-- An example of reactive inputs: the line chart before its columns are set. -/
def noColumnsProps : Props := { lineChartProps with columns := .arr [] }

/-- An example of reactive inputs: one column and no row. -/
def oneColumnProps : Props :=
  { lineChartProps with columns := .arr [.obj [("type", .str "number"), ("label", .str "C")]],
                        rows := .arr [] }

/-- Whether an observation is a step of the promise chain of `ready`. -/
def Obs.isChainStep : Obs → Bool
  | .request => true
  | .drawReturned => true
  | .drawThrew => true
  | .bind => true
  | _ => false

/-- The steps of the chain of `ready` seen so far, in order. -/
def Page.chain (pg : Page) : List Obs := pg.history.filter Obs.isChainStep

/-- In the history `h`, every occurrence of `b` comes after an occurrence of `a`. -/
def Precedes (a b : Obs) (h : List Obs) : Prop :=
  ∀ h1 h2, h = h1 ++ b :: h2 → a ∈ h1

/-- Whether a page event is a `loadCharts` call of another component. -/
def PageEvent.isOtherCall : PageEvent → Bool
  | .loader (.call _ _) => true
  | _ => false

/-- The invariant of a page: the chain has advanced in order, observers exist
only once the chain has bound them, the promise is resolved exactly when the
load is seen to complete, and a drawing is never seen before that. -/
def Page.Inv (pg : Page) : Prop :=
  (match pg.boot with
    | .unmounted => pg.chain = [] ∧ pg.watchers = []
    | .awaitingLoad => pg.chain = [.request] ∧ pg.watchers = []
    | .awaitingBind => pg.chain = [.request, .drawReturned] ∧ pg.watchers = []
    | .bound => pg.chain = [.request, .drawReturned, .bind]
    | .failed => (pg.chain = [.request, .drawThrew] ∨ pg.chain = [.request]) ∧ pg.watchers = []) ∧
  pg.loader.google_promise ≠ .rejected ∧
  (Obs.loadComplete ∈ pg.history ↔ pg.loader.google_promise = .resolved) ∧
  Precedes .loadComplete .drawReturned pg.history ∧
  Precedes .loadComplete .drawThrew pg.history ∧
  Precedes .bind .watcherDraw pg.history

/-- An instance on which `drawChart` throws: `chart` is set although no wrapper
and no data table exist. -/
def brokenInstance : Instance := { data 0 with chart := some 0 }

/-- An example run of a page: the hook runs, the script loads, Google completes
the load, and the job queue runs the two callbacks of the chain. -/
def loadedTrace : List PageEvent :=
  [.mount lineChartProps, .loader (.scriptLoaded 0), .loader .googleLoaded,
   .job lineChartProps, .job lineChartProps]

/-- An example run of a page: the hook runs and the load fails. -/
def failedLoadTrace : List PageEvent :=
  [.mount lineChartProps, .loader .loadFailed, .job lineChartProps, .job lineChartProps]

/-- An example of reactive inputs: the line chart with a text in place of its
rows. -/
def textRowsProps : Props := { lineChartProps with rows := .str "2004,1000" }

/-- How often the load handler of the inserted script runs in a sequence of
events: once for every `scriptLoaded 0` that comes after a `loadCharts` call
(`seen` tells whether a call came before). The one script is at index 0. -/
def handlerRuns : Bool → List LoaderEvent → Nat
  | _, [] => 0
  | _, .call _ _ :: rest => handlerRuns true rest
  | seen, .scriptLoaded i :: rest => (if seen && i == 0 then 1 else 0) + handlerRuns seen rest
  | seen, .googleLoaded :: rest => handlerRuns seen rest
  | seen, .loadFailed :: rest => handlerRuns seen rest

/-- An example run of a page: another component has loaded the library before
the hook of this instance runs. -/
def lateMountTrace : List PageEvent :=
  [.loader (.call (.arr [.str "corechart"]) (.str "current")), .loader (.scriptLoaded 0),
   .loader .googleLoaded, .mount lineChartProps, .job lineChartProps, .job lineChartProps]

/-! ## The loader: one script, one load, never a rejection -/

/-- The flag test of `loadCharts`. -/
theorem loadCharts_of_busy (packages version : JSVal) (l : Loader)
    (h : (l.is_loading || l.is_loaded) = true) : loadCharts packages version l = l := by
  simp [loadCharts, h]

/-- Once one of the flags is set, one of them stays set. -/
theorem Loader.step_busy (l : Loader) (e : LoaderEvent)
    (h : (l.is_loading || l.is_loaded) = true) :
    ((l.step e).is_loading || (l.step e).is_loaded) = true := by
  cases e with
  | call packages version => simp [Loader.step, loadCharts_of_busy _ _ _ h, h]
  | scriptLoaded i =>
    simp only [Loader.step]
    cases l.head[i]? <;> simp [scriptOnload, h]
  | googleLoaded =>
    simp only [Loader.step]
    cases l.onLoadCallbacks <;> simp [onLoadCallback, h]
  | loadFailed => simpa [Loader.step] using h


theorem Loader.init_consistent : Loader.init.Consistent := by
  simp [Loader.Consistent, Loader.init, makeDeferred]

theorem Loader.step_consistent (l : Loader) (e : LoaderEvent) (h : l.Consistent) :
    (l.step e).Consistent := by
  obtain ⟨h1, h0⟩ := h
  cases hb : (l.is_loading || l.is_loaded) with
  | true =>
    have hb2 := Loader.step_busy l e hb
    refine ⟨fun _ => ?_, fun hf => by rw [hb2] at hf; cases hf⟩
    have hlen := h1 hb
    cases e with
    | call packages version => rw [Loader.step, loadCharts_of_busy _ _ _ hb]; exact hlen
    | scriptLoaded i =>
      simp only [Loader.step]
      cases l.head[i]? <;> simpa [scriptOnload] using hlen
    | googleLoaded =>
      simp only [Loader.step]
      cases l.onLoadCallbacks <;> simpa [onLoadCallback] using hlen
    | loadFailed => simpa [Loader.step] using hlen
  | false =>
    obtain ⟨hh, hc, hl, hp⟩ := h0 hb
    cases e with
    | call packages version =>
      simp [Loader.Consistent, Loader.step, loadCharts, hb, hh]
    | scriptLoaded i =>
      simp [Loader.Consistent, Loader.step, hh, hb, hc, hl, hp]
    | googleLoaded =>
      simp [Loader.Consistent, Loader.step, hh, hb, hc, hl, hp]
    | loadFailed =>
      simp [Loader.Consistent, Loader.step, hh, hb, hc, hl, hp]

theorem Loader.run_cons (l : Loader) (e : LoaderEvent) (evs : List LoaderEvent) :
    l.run (e :: evs) = (l.step e).run evs := rfl

theorem Loader.run_consistent (evs : List LoaderEvent) (l : Loader) (h : l.Consistent) :
    (l.run evs).Consistent := by
  induction evs generalizing l with
  | nil => exact h
  | cons e evs ih => exact ih _ (Loader.step_consistent l e h)

/-- The flags after one event: a flag is set exactly when one was set before or
the event is a `loadCharts` call. -/
theorem Loader.step_flag (l : Loader) (e : LoaderEvent) (h : l.Consistent) :
    ((l.step e).is_loading || (l.step e).is_loaded) =
      ((l.is_loading || l.is_loaded) || e.isCall) := by
  cases hb : (l.is_loading || l.is_loaded) with
  | true => simpa using Loader.step_busy l e hb
  | false =>
    obtain ⟨hh, hc, -, -⟩ := h.2 hb
    cases e with
    | call packages version => simp [Loader.step, loadCharts, hb, LoaderEvent.isCall]
    | scriptLoaded i => simp [Loader.step, hh, LoaderEvent.isCall, hb]
    | googleLoaded => simp [Loader.step, hc, LoaderEvent.isCall, hb]
    | loadFailed => simp [Loader.step, LoaderEvent.isCall, hb]

theorem Loader.run_flag (evs : List LoaderEvent) (l : Loader) (h : l.Consistent) :
    ((l.run evs).is_loading || (l.run evs).is_loaded) =
      ((l.is_loading || l.is_loaded) || evs.any LoaderEvent.isCall) := by
  induction evs generalizing l with
  | nil => simp [Loader.run]
  | cons e evs ih =>
    rw [Loader.run_cons, ih _ (Loader.step_consistent l e h), Loader.step_flag l e h]
    simp [Bool.or_assoc]

/-- C1. For every sequence of `loadCharts` calls, script load handlers, Google
callbacks and failures, the number of loader scripts inserted into the document
is one when the sequence holds a `loadCharts` call and zero when it holds none:
the load sequence is started at most once, and exactly once as soon as
`loadCharts` is called. -/
theorem loadCharts_inserts_one_script (evs : List LoaderEvent) :
    (Loader.init.run evs).head.length = if evs.any LoaderEvent.isCall then 1 else 0 := by
  have hc := Loader.run_consistent evs _ Loader.init_consistent
  have hf := Loader.run_flag evs _ Loader.init_consistent
  simp only [Loader.init, Bool.or_self, Bool.false_or] at hf
  cases ha : evs.any LoaderEvent.isCall with
  | true =>
    rw [ha] at hf
    simpa using hc.1 hf
  | false =>
    rw [ha] at hf
    simpa using (hc.2 hf).1

/-! ### A failed load -/

/-- No event rejects the promise, and only a Google callback takes it out of
the pending state. -/
theorem Loader.step_promise (l : Loader) (e : LoaderEvent) :
    (l.step e).google_promise = l.google_promise ∨
      (e.isGoogleLoaded = true ∧ (l.step e).google_promise = l.google_promise.resolve) := by
  cases e with
  | call packages version =>
    left
    simp only [Loader.step, loadCharts]
    split <;> rfl
  | scriptLoaded i =>
    left
    simp only [Loader.step]
    cases l.head[i]? <;> rfl
  | googleLoaded =>
    simp only [Loader.step]
    cases l.onLoadCallbacks with
    | zero => left; rfl
    | succ n => right; exact ⟨rfl, rfl⟩
  | loadFailed => left; rfl

theorem Loader.run_promise (evs : List LoaderEvent) (l : Loader)
    (h : l.google_promise ≠ .rejected) :
    (l.run evs).google_promise = l.google_promise ∨
      ((l.run evs).google_promise = .resolved ∧ evs.any LoaderEvent.isGoogleLoaded = true) := by
  induction evs generalizing l with
  | nil => left; rfl
  | cons e evs ih =>
    rw [Loader.run_cons]
    rcases Loader.step_promise l e with h1 | ⟨hg, h1⟩
    · rcases ih (l.step e) (by rw [h1]; exact h) with h2 | ⟨h2, h3⟩
      · left; rw [h2, h1]
      · right; exact ⟨h2, by simp [h3]⟩
    · have hres : (l.step e).google_promise = .resolved := by
        rw [h1]
        cases hp : l.google_promise with
        | pending => rfl
        | resolved => rfl
        | rejected => exact absurd hp h
      rcases ih (l.step e) (by rw [hres]; decide) with h2 | ⟨h2, -⟩
      · right; exact ⟨by rw [h2, hres], by simp [hg]⟩
      · right; exact ⟨h2, by simp [hg]⟩

/-- C6, the claim as stated fails: after a `loadCharts` call whose load fails,
the shared promise is not rejected; it is still pending. -/
theorem loadCharts_failure_leaves_promise_pending :
    (Loader.init.run [.call (.arr [.str "corechart"]) (.str "current"),
                      .loadFailed]).google_promise = .pending ∧
    (Loader.init.run [.call (.arr [.str "corechart"]) (.str "current"),
                      .loadFailed]).google_promise ≠ .rejected := by
  constructor
  · rfl
  · decide

/-- C6, amended. Whatever happens (calls, script loads, Google callbacks, failed
loads), the shared promise is never rejected: it is pending, or it is resolved
and a Google callback has run. After a failure it therefore stays pending. -/
theorem google_promise_never_rejected (evs : List LoaderEvent) :
    (Loader.init.run evs).google_promise = .pending ∨
      ((Loader.init.run evs).google_promise = .resolved ∧
        evs.any LoaderEvent.isGoogleLoaded = true) := by
  have h := Loader.run_promise evs Loader.init (by simp [Loader.init, makeDeferred])
  simpa [Loader.init, makeDeferred] using h

/-! ### Whose arguments are used -/

theorem Loader.run_eraseLaterArgs_busy (evs : List LoaderEvent) (l : Loader)
    (h : (l.is_loading || l.is_loaded) = true) :
    l.run (eraseLaterArgs true evs) = l.run evs := by
  induction evs generalizing l with
  | nil => rfl
  | cons e evs ih =>
    cases e with
    | call packages version =>
      simp only [eraseLaterArgs, if_true, Loader.run_cons, Loader.step]
      rw [loadCharts_of_busy _ _ _ h, loadCharts_of_busy _ _ _ h]
      exact ih l h
    | scriptLoaded i =>
      simp only [eraseLaterArgs, Loader.run_cons]
      exact ih _ (Loader.step_busy l _ h)
    | googleLoaded =>
      simp only [eraseLaterArgs, Loader.run_cons]
      exact ih _ (Loader.step_busy l _ h)
    | loadFailed =>
      simp only [eraseLaterArgs, Loader.run_cons]
      exact ih _ (Loader.step_busy l _ h)

theorem loadCharts_busy (packages version : JSVal) (l : Loader) :
    ((loadCharts packages version l).is_loading ||
      (loadCharts packages version l).is_loaded) = true := by
  cases hb : (l.is_loading || l.is_loaded) with
  | true => rw [loadCharts_of_busy _ _ _ hb]; exact hb
  | false => simp [loadCharts, hb]

theorem Loader.run_eraseLaterArgs (evs : List LoaderEvent) (l : Loader) :
    l.run (eraseLaterArgs false evs) = l.run evs := by
  induction evs generalizing l with
  | nil => rfl
  | cons e evs ih =>
    cases e with
    | call packages version =>
      simp only [eraseLaterArgs, Loader.run_cons, Loader.step]
      exact Loader.run_eraseLaterArgs_busy evs _ (loadCharts_busy packages version l)
    | scriptLoaded i =>
      simp only [eraseLaterArgs, Loader.run_cons]
      exact ih _
    | googleLoaded =>
      simp only [eraseLaterArgs, Loader.run_cons]
      exact ih _
    | loadFailed =>
      simp only [eraseLaterArgs, Loader.run_cons]
      exact ih _

/-- Before the first `loadCharts` call nothing can happen to the loader. -/
theorem Loader.step_idle (l : Loader) (e : LoaderEvent) (h : l.Consistent)
    (hb : (l.is_loading || l.is_loaded) = false) (he : e.isCall = false) : l.step e = l := by
  obtain ⟨hh, hc, -, -⟩ := h.2 hb
  cases e with
  | call packages version => simp [LoaderEvent.isCall] at he
  | scriptLoaded i => simp [Loader.step, hh]
  | googleLoaded => simp [Loader.step, hc]
  | loadFailed => rfl

/-- Once a `loadCharts` call has inserted its script, every run of the script's
load handler calls `google.charts.load` with the arguments the script has
captured, and nothing else calls it. -/
theorem Loader.run_loadCalls_busy (sc : ScriptElement) (evs : List LoaderEvent) (l : Loader)
    (hb : (l.is_loading || l.is_loaded) = true) (hh : l.head = [sc]) :
    (l.run evs).loadCalls =
      l.loadCalls ++ List.replicate (handlerRuns true evs) (sc.version, sc.packages) := by
  induction evs generalizing l with
  | nil => simp [Loader.run, handlerRuns]
  | cons e evs ih =>
    rw [Loader.run_cons]
    cases e with
    | call packages version =>
      rw [Loader.step, loadCharts_of_busy _ _ _ hb]
      exact ih l hb hh
    | scriptLoaded i =>
      cases i with
      | zero =>
        have hs : l.step (.scriptLoaded 0) = scriptOnload sc l := by
          simp [Loader.step, hh]
        rw [hs, ih (scriptOnload sc l) hb hh]
        simp only [scriptOnload, handlerRuns, Bool.true_and, beq_self_eq_true, if_true,
          List.append_assoc, List.singleton_append]
        rw [Nat.add_comm, List.replicate_succ]
      | succ k =>
        have hs : l.step (.scriptLoaded (k + 1)) = l := by
          simp [Loader.step, hh]
        rw [hs, ih l hb hh]
        simp [handlerRuns]
    | googleLoaded =>
      have hb2 := Loader.step_busy l .googleLoaded hb
      have hh2 : (l.step .googleLoaded).head = [sc] := by
        simp only [Loader.step]
        cases l.onLoadCallbacks <;> simpa [onLoadCallback] using hh
      have hl2 : (l.step .googleLoaded).loadCalls = l.loadCalls := by
        simp only [Loader.step]
        cases l.onLoadCallbacks <;> rfl
      rw [ih _ hb2 hh2, hl2]
      simp [handlerRuns]
    | loadFailed =>
      exact ih l hb hh

/-- From the idle state: the calls of `google.charts.load` are one call per run
of the load handler, each with the arguments of the first `loadCharts` call. -/
theorem Loader.run_loadCalls_idle (evs : List LoaderEvent) (l : Loader) (h : l.Consistent)
    (hb : (l.is_loading || l.is_loaded) = false) :
    (l.run evs).loadCalls =
      match firstCall evs with
      | none => []
      | some c => List.replicate (handlerRuns false evs) c := by
  induction evs with
  | nil => simpa [Loader.run, firstCall] using (h.2 hb).2.2.1
  | cons e evs ih =>
    cases e with
    | call packages version =>
      obtain ⟨hh, -, hl, -⟩ := h.2 hb
      have hhead : (loadCharts packages version l).head = [⟨packages, version⟩] := by
        simp [loadCharts, hb, hh]
      have hcalls : (loadCharts packages version l).loadCalls = [] := by
        simp [loadCharts, hb, hl]
      rw [Loader.run_cons, Loader.step,
        Loader.run_loadCalls_busy ⟨packages, version⟩ evs _
          (loadCharts_busy packages version l) hhead, hcalls]
      simp [firstCall, handlerRuns]
    | scriptLoaded i =>
      rw [Loader.run_cons, Loader.step_idle l (.scriptLoaded i) h hb rfl, ih]
      simp [firstCall, handlerRuns]
    | googleLoaded =>
      rw [Loader.run_cons, Loader.step_idle l .googleLoaded h hb rfl, ih]
      simp [firstCall, handlerRuns]
    | loadFailed =>
      rw [Loader.run_cons, Loader.step_idle l .loadFailed h hb rfl, ih]
      simp [firstCall, handlerRuns]

/-- C10. Two sequences of events that agree once the arguments of every
`loadCharts` call after the first are erased leave the loader in the same state
(flags, promise, inserted script, calls of `google.charts.load`). The calls of
`google.charts.load` are exactly one call per run of the script's load handler,
each made with the version and packages of the first `loadCharts` call; there
is none before the first `loadCharts` call. -/
theorem loadCharts_uses_first_call_arguments (evs₁ evs₂ : List LoaderEvent)
    (h : eraseLaterArgs false evs₁ = eraseLaterArgs false evs₂) :
    Loader.init.run evs₁ = Loader.init.run evs₂ ∧
      (Loader.init.run evs₁).loadCalls =
        (match firstCall evs₁ with
         | none => []
         | some c => List.replicate (handlerRuns false evs₁) c) ∧
      (Loader.init.run evs₂).loadCalls =
        (match firstCall evs₁ with
         | none => []
         | some c => List.replicate (handlerRuns false evs₁) c) := by
  have heq : Loader.init.run evs₁ = Loader.init.run evs₂ := by
    rw [← Loader.run_eraseLaterArgs evs₁, ← Loader.run_eraseLaterArgs evs₂, h]
  refine ⟨heq, Loader.run_loadCalls_idle evs₁ _ Loader.init_consistent rfl, ?_⟩
  rw [← heq]
  exact Loader.run_loadCalls_idle evs₁ _ Loader.init_consistent rfl

/-- C10, on an example: a second caller asking for other packages and another
version changes nothing; in both runs the one call of `google.charts.load` is
made with `current` and `corechart`. -/
theorem loadCharts_uses_first_call_arguments_witness :
    eraseLaterArgs false
        [.call (.arr [.str "corechart"]) (.str "current"),
         .call (.arr [.str "gauge"]) (.str "45"), .scriptLoaded 0, .googleLoaded] =
      eraseLaterArgs false
        [.call (.arr [.str "corechart"]) (.str "current"),
         .call (.arr [.str "table"]) (.str "upcoming"), .scriptLoaded 0, .googleLoaded] ∧
    (Loader.init.run
        [.call (.arr [.str "corechart"]) (.str "current"),
         .call (.arr [.str "gauge"]) (.str "45"), .scriptLoaded 0, .googleLoaded] =
      Loader.init.run
        [.call (.arr [.str "corechart"]) (.str "current"),
         .call (.arr [.str "table"]) (.str "upcoming"), .scriptLoaded 0, .googleLoaded] ∧
      (Loader.init.run
        [.call (.arr [.str "corechart"]) (.str "current"),
         .call (.arr [.str "gauge"]) (.str "45"), .scriptLoaded 0, .googleLoaded]).loadCalls =
        [(.str "current", .arr [.str "corechart"])] ∧
      (Loader.init.run
        [.call (.arr [.str "corechart"]) (.str "current"),
         .call (.arr [.str "table"]) (.str "upcoming"), .scriptLoaded 0, .googleLoaded]).loadCalls =
        [(.str "current", .arr [.str "corechart"])]) :=
  ⟨rfl, loadCharts_uses_first_call_arguments _ _ rfl⟩

/-! ## The property binder -/

/-- The observers of `propsBinder`, one per entry of the watch specification:
the observer is deep exactly when `_.isObject` holds of the entry's `type`. -/
theorem propsBinder_obj (fields : List (String × JSVal)) :
    propsBinder (.obj fields) =
      fields.map fun kv => { attr := kv.1, deep := (kv.2.getProp "type").isObject } := by
  simp [propsBinder, JSVal.eachEntries, List.map_map, Function.comp_def]

/-- C5, what the code does. Bound to the component's own `props`, `propsBinder`
registers a deep observer for every attribute that declares a type, the
String-typed `chartType` included, because `_.isObject` holds of every
constructor function; only the untyped `version` is observed shallowly. -/
theorem propsBinder_observes_chartType_deeply :
    propsBinder (deleteProp "bounds" props) =
      [{ attr := "packages", deep := true }, { attr := "version", deep := false },
       { attr := "chartType", deep := true }, { attr := "columns", deep := true },
       { attr := "rows", deep := true }, { attr := "options", deep := true }] ∧
    jsString.isObject = true := by
  constructor
  · decide
  · rfl

/-! ## The container id -/

theorem digitChar_value (k : Nat) (h : k < 10) : (Nat.digitChar k).toNat - 48 = k := by
  interval_cases k <;> rfl

theorem decimalValue_toDigitsCore (fuel : Nat) :
    ∀ (n : Nat) (ds : List Char), n < fuel →
      decimalValue 0 (Nat.toDigitsCore 10 fuel n ds) = decimalValue n ds := by
  induction fuel with
  | zero => intro n ds h; exact absurd h (Nat.not_lt_zero n)
  | succ fuel ih =>
    intro n ds h
    have hd := digitChar_value (n % 10) (Nat.mod_lt n (by decide))
    have hn : n / 10 * 10 + n % 10 = n := Nat.div_add_mod' n 10
    simp only [Nat.toDigitsCore]
    by_cases h0 : n / 10 = 0
    · simp only [h0, if_true]
      rw [h0] at hn
      simp only [decimalValue, List.foldl_cons, hd]
      rw [show 0 * 10 + n % 10 = n by omega]
    · simp only [h0, if_false]
      rw [ih (n / 10) _ (by omega)]
      simp only [decimalValue, List.foldl_cons, hd, hn]

theorem decimalValue_repr (n : Nat) : decimalValue 0 (Nat.repr n).data = n := by
  simp only [Nat.repr, Nat.toDigits, List.asString]
  exact decimalValue_toDigitsCore (n + 1) n [] (Nat.lt_succ_self n)

theorem repr_injective (a b : Nat) (h : Nat.repr a = Nat.repr b) : a = b := by
  rw [← decimalValue_repr a, ← decimalValue_repr b, h]

/-! ## The chart life cycle -/

theorem fillCalls_isTableFill (p : Props) (t : Nat) :
    ∀ c ∈ fillCalls p t, c.isTableFill = true := by
  intro c hc
  simp only [fillCalls, addColumnCalls, List.mem_append, List.mem_map] at hc
  rcases hc with ⟨v, -, rfl⟩ | hc
  · rfl
  · split at hc
    · rw [List.mem_singleton] at hc; rw [hc]; rfl
    · cases hc

/-- What `buildChart` does to an instance. -/
theorem buildChart_spec (p : Props) (s : Instance) :
    (buildChart p s).chart = s.chart ∧ (buildChart p s).chartId = s.chartId ∧
    (buildChart p s).wrapper = some s.wrappers.length ∧
    ∃ t pre, (buildChart p s).dataTable = .table t ∧ (∀ c ∈ pre, Call.isTableFill c = true) ∧
      (buildChart p s).calls = s.calls ++ pre ++
        [Call.newChartWrapper s.wrappers.length p.chartType t p.options s.chartId,
         Call.addOneTimeListener s.wrappers.length] := by
  cases h : s.dataTable with
  | emptyArray =>
    refine ⟨?_, ?_, ?_, s.tables.length,
      Call.newDataTable s.tables.length :: fillCalls p s.tables.length, ?_, ?_, ?_⟩
    · simp [buildChart, h, buildDataTable, buildWrapper, addOneTimeListener]
    · simp [buildChart, h, buildDataTable, buildWrapper, addOneTimeListener]
    · simp [buildChart, h, buildDataTable, buildWrapper, addOneTimeListener]
    · simp [buildChart, h, buildDataTable, buildWrapper, addOneTimeListener]
    · intro c hc
      rcases List.mem_cons.1 hc with rfl | hc
      · rfl
      · exact fillCalls_isTableFill p _ c hc
    · simp [buildChart, h, buildDataTable, buildWrapper, addOneTimeListener]
  | table t =>
    refine ⟨?_, ?_, ?_, t, [], ?_, ?_, ?_⟩
    · simp [buildChart, h, buildWrapper, addOneTimeListener]
    · simp [buildChart, h, buildWrapper, addOneTimeListener]
    · simp [buildChart, h, buildWrapper, addOneTimeListener]
    · simp [buildChart, h, buildWrapper, addOneTimeListener]
    · intro c hc; cases hc
    · simp [buildChart, h, buildWrapper, addOneTimeListener]

theorem wrapperDraw_of_wrapper (s : Instance) (w : Nat) (h : s.wrapper = some w) :
    wrapperDraw s = .ok { s with
      wrappers := s.wrappers.modify (fun wr => { wr with drawCalls := wr.drawCalls + 1 }) w,
      calls := s.calls ++ [Call.draw w] } := by
  simp [wrapperDraw, h]

theorem drawChart_of_chart_null (p : Props) (s : Instance) (ha : drawAborts p = false)
    (hc : s.chart = none) :
    drawChart p s = .ok { buildChart p s with
      wrappers := (buildChart p s).wrappers.modify
        (fun wr => { wr with drawCalls := wr.drawCalls + 1 }) s.wrappers.length,
      calls := (buildChart p s).calls ++ [Call.addListener s.wrappers.length] ++
        [Call.draw s.wrappers.length] } := by
  have h3 := (buildChart_spec p s).2.2.1
  simp only [drawChart, ha, hc, Option.isNone_none, if_true, Bool.false_eq_true, if_false,
    addSelectListener, h3, bind, Except.bind]
  rfl

theorem drawChart_of_chart (p : Props) (s : Instance) (ha : drawAborts p = false)
    (c w t : Nat) (hc : s.chart = some c) (hw : s.wrapper = some w)
    (ht : s.dataTable = .table t) :
    ∃ u n m, drawChart p s = .ok { s with
      tables := s.tables.set t u,
      wrappers := s.wrappers.modify (fun wr => { wr with drawCalls := wr.drawCalls + 1 }) w,
      calls := s.calls ++ Call.removeRows t 0 n :: Call.removeColumns t 0 m :: fillCalls p t ++
        [Call.draw w] } := by
  have h : drawChart p s = (updateDataTable p s >>= wrapperDraw) := by
    simp only [drawChart, ha, hc, Option.isNone_some, Bool.false_eq_true, if_false]
  rw [h]
  simp only [updateDataTable, ht, bind, Except.bind, wrapperDraw, hw]
  exact ⟨_, _, _, rfl⟩

/-- The build path of `drawChart`: taken when `chart` is null. -/
theorem drawChart_build (p : Props) (s : Instance) (ha : drawAborts p = false)
    (hc : s.chart = none) :
    ∃ s' t pre, drawChart p s = .ok s' ∧ s'.chart = none ∧ s'.chartId = s.chartId ∧
      s'.wrapper = some s.wrappers.length ∧ s'.dataTable = .table t ∧
      (∀ c ∈ pre, Call.isTableFill c = true) ∧
      s'.calls = s.calls ++ pre ++
        [Call.newChartWrapper s.wrappers.length p.chartType t p.options s.chartId,
         Call.addOneTimeListener s.wrappers.length, Call.addListener s.wrappers.length,
         Call.draw s.wrappers.length] := by
  obtain ⟨h1, h2, h3, t, pre, h4, h5, h6⟩ := buildChart_spec p s
  refine ⟨_, t, pre, drawChart_of_chart_null p s ha hc, ?_, h2, h3, h4, h5, ?_⟩
  · simpa [hc] using h1
  · simp [h6]

/-- The update path of `drawChart`: taken when `chart` is not null. -/
theorem drawChart_update (p : Props) (s : Instance) (ha : drawAborts p = false)
    (c w t : Nat) (hc : s.chart = some c) (hw : s.wrapper = some w)
    (ht : s.dataTable = .table t) :
    ∃ s' n m, drawChart p s = .ok s' ∧ s'.chart = some c ∧ s'.chartId = s.chartId ∧
      s'.wrapper = some w ∧ s'.dataTable = .table t ∧
      s'.wrappers = s.wrappers.modify (fun wr => { wr with drawCalls := wr.drawCalls + 1 }) w ∧
      s'.calls = s.calls ++ Call.removeRows t 0 n :: Call.removeColumns t 0 m :: fillCalls p t
        ++ [Call.draw w] := by
  obtain ⟨u, n, m, h⟩ := drawChart_of_chart p s ha c w t hc hw ht
  exact ⟨_, n, m, h, hc, rfl, hw, ht, rfl, rfl⟩

theorem drawChart_of_aborts (p : Props) (s : Instance) (ha : drawAborts p = true) :
    drawChart p s = .ok s := by
  simp [drawChart, ha]

theorem readyListener_spec (s : Instance) :
    (readyListener s).chartId = s.chartId ∧ (readyListener s).wrapper = s.wrapper ∧
    (readyListener s).dataTable = s.dataTable ∧ (readyListener s).wrappers = s.wrappers ∧
    (readyListener s).tables = s.tables ∧ (readyListener s).calls = s.calls := by
  unfold readyListener
  cases h : s.wrapper <;> simp [h]

/-- The event 'ready' touches neither the fields of the instance other than
`chart` nor the log of calls. -/
theorem fireReady_spec (w : Nat) (s : Instance) :
    (fireReady w s).chartId = s.chartId ∧ (fireReady w s).wrapper = s.wrapper ∧
    (fireReady w s).dataTable = s.dataTable ∧ (fireReady w s).tables = s.tables ∧
    (fireReady w s).calls = s.calls := by
  unfold fireReady
  cases s.wrappers[w]? with
  | none => simp
  | some wr =>
    simp only
    split
    · simp
    · split
      · simp
      · exact ⟨(readyListener_spec _).1, (readyListener_spec _).2.1, (readyListener_spec _).2.2.1,
          (readyListener_spec _).2.2.2.2.1, (readyListener_spec _).2.2.2.2.2⟩

theorem built_after_modify (ws : List ChartWrapper) (w w0 : Nat) (wr0 : ChartWrapper)
    (h : ws[w0]? = some wr0) (hb : wr0.chartBuilt = true) :
    ∃ wr1, (ws.modify (fun x => { x with chartBuilt := true, readyOnce := 0 }) w)[w0]? = some wr1 ∧
      wr1.chartBuilt = true := by
  rw [List.getElem?_modify, h]
  by_cases hw : w = w0
  · exact ⟨{ wr0 with chartBuilt := true, readyOnce := 0 }, by simp [hw], rfl⟩
  · exact ⟨wr0, by simp [hw], hb⟩

theorem fireReady_sound (w : Nat) (s : Instance) (h : s.Sound) : (fireReady w s).Sound := by
  obtain ⟨-, hw, hd, -, -⟩ := fireReady_spec w s
  refine ⟨?_, fun w0 h0 => by rw [hd]; exact h.2 w0 (hw ▸ h0)⟩
  unfold fireReady
  cases hg : s.wrappers[w]? with
  | none => exact h.1
  | some wr =>
    simp only
    split
    · exact h.1
    · split
      · intro c hc
        obtain ⟨w0, wr0, h1, h2, h3⟩ := h.1 c hc
        obtain ⟨wr1, h4, h5⟩ := built_after_modify s.wrappers w w0 wr0 h2 h3
        exact ⟨w0, wr1, h1, h4, h5⟩
      · intro c hc
        unfold readyListener at hc ⊢
        cases hcw : s.wrapper with
        | none =>
          simp only [hcw] at hc ⊢
          obtain ⟨w0, wr0, h1, -, -⟩ := h.1 c hc
          rw [hcw] at h1; cases h1
        | some cw =>
          simp only [hcw] at hc ⊢
          simp only [getChart] at hc
          refine ⟨cw, ?_⟩
          split at hc
          · rename_i wr1 hwr1
            split at hc
            · rename_i hb
              exact ⟨wr1, rfl, hwr1, hb⟩
            · cases hc
          · cases hc

theorem fireReady_chart (w : Nat) (s : Instance) (h : s.Sound) (hc : s.chart.isSome = true) :
    (fireReady w s).chart.isSome = true := by
  unfold fireReady
  cases hg : s.wrappers[w]? with
  | none => exact hc
  | some wr =>
    simp only
    split
    · exact hc
    · split
      · exact hc
      · obtain ⟨c, hc1⟩ := Option.isSome_iff_exists.1 hc
        obtain ⟨w0, wr0, h1, h2, h3⟩ := h.1 c hc1
        obtain ⟨wr1, h4, h5⟩ := built_after_modify s.wrappers w w0 wr0 h2 h3
        simp [readyListener, h1, getChart, h4, h5]

theorem drawChart_sound (p : Props) (s : Instance) (h : s.Sound) :
    ∃ s', drawChart p s = .ok s' ∧ s'.Sound ∧ s'.chartId = s.chartId ∧
      (s.chart.isSome = true → s'.chart.isSome = true) := by
  cases ha : drawAborts p with
  | true => exact ⟨s, drawChart_of_aborts p s ha, h, rfl, id⟩
  | false =>
    cases hc : s.chart with
    | none =>
      obtain ⟨s', t, pre, h1, h2, h3, h4, h5, -, -⟩ := drawChart_build p s ha hc
      refine ⟨s', h1, ⟨?_, ?_⟩, h3, ?_⟩
      · intro c hc'; rw [h2] at hc'; cases hc'
      · intro w _; exact ⟨t, h5⟩
      · intro hx; cases hx
    | some c =>
      obtain ⟨w, wr, hw, hwr, hb⟩ := h.1 c hc
      obtain ⟨t, ht⟩ := h.2 w hw
      obtain ⟨s', n, m, h1, h2, h3, h4, h5, h6, -⟩ := drawChart_update p s ha c w t hc hw ht
      refine ⟨s', h1, ⟨?_, ?_⟩, h3, ?_⟩
      · intro c' _
        refine ⟨w, { wr with drawCalls := wr.drawCalls + 1 }, h4, ?_, hb⟩
        rw [h6, List.getElem?_modify_eq, hwr]; rfl
      · intro w' _; exact ⟨t, h5⟩
      · intro _; rw [h2]; rfl

theorem Instance.run_event_cons (s : Instance) (e : InstanceEvent) (evs : List InstanceEvent) :
    s.run (e :: evs) = (s.step e).run evs := rfl

theorem Instance.step_sound (s : Instance) (e : InstanceEvent) (h : s.Sound) :
    (s.step e).Sound ∧ (s.step e).chartId = s.chartId ∧
      (s.chart.isSome = true → (s.step e).chart.isSome = true) := by
  cases e with
  | draw p =>
    obtain ⟨s', h1, h2, h3, h4⟩ := drawChart_sound p s h
    simp only [Instance.step, h1, Outcome.state]
    exact ⟨h2, h3, h4⟩
  | ready w =>
    exact ⟨fireReady_sound w s h, (fireReady_spec w s).1, fireReady_chart w s h⟩

theorem Instance.run_sound (evs : List InstanceEvent) (s : Instance) (h : s.Sound) :
    (s.run evs).Sound ∧ (s.run evs).chartId = s.chartId ∧
      (s.chart.isSome = true → (s.run evs).chart.isSome = true) := by
  induction evs generalizing s with
  | nil => exact ⟨h, rfl, id⟩
  | cons e evs ih =>
    obtain ⟨h1, h2, h3⟩ := Instance.step_sound s e h
    obtain ⟨h4, h5, h6⟩ := ih (s.step e) h1
    exact ⟨h4, h5.trans h2, fun hc => h6 (h3 hc)⟩

theorem data_sound (uid : Nat) : (data uid).Sound := by
  constructor
  · intro c hc; cases hc
  · intro w hw; cases hw

theorem countP_of_isTableFill (test : Call → Bool) (pre : List Call)
    (hpre : ∀ c ∈ pre, Call.isTableFill c = true)
    (htest : ∀ c, Call.isTableFill c = true → test c = false) : pre.countP test = 0 := by
  rw [List.countP_eq_zero]
  intro c hc
  simp [htest c (hpre c hc)]

theorem isTableFill_not_wrapper (c : Call) (h : c.isTableFill = true) :
    c.isNewChartWrapper = false ∧ c.isAddOneTimeListener = false ∧ c.isAddListener = false ∧
      c.isRemove = false ∧ c.isDraw = false ∧ c.containerId? = none := by
  cases c <;> simp_all [Call.isTableFill, Call.isNewChartWrapper, Call.isAddOneTimeListener,
    Call.isAddListener, Call.isRemove, Call.isDraw, Call.containerId?]

/-- C2, the claim as stated fails: two `drawChart` calls with renderable inputs
and no 'ready' event in between both take the build path; two wrappers are
constructed and both listeners are registered twice, and the second call does
not touch the update path. -/
theorem drawChart_twice_before_ready_builds_twice :
    drawAborts lineChartProps = false ∧
    ((data 0).run [.draw lineChartProps, .draw lineChartProps]).count Call.isNewChartWrapper = 2 ∧
    ((data 0).run [.draw lineChartProps, .draw lineChartProps]).count
      Call.isAddOneTimeListener = 2 ∧
    ((data 0).run [.draw lineChartProps, .draw lineChartProps]).count Call.isAddListener = 2 ∧
    ((data 0).run [.draw lineChartProps, .draw lineChartProps]).count Call.isRemove = 0 := by
  refine ⟨by decide, by decide, by decide, by decide, by decide⟩

theorem count_build (test : Call → Bool) (cs pre : List Call) (a b c d : Call)
    (hpre : ∀ x ∈ pre, Call.isTableFill x = true)
    (htest : ∀ x, Call.isTableFill x = true → test x = false) :
    (cs ++ pre ++ [a, b, c, d]).countP test = cs.countP test + [a, b, c, d].countP test := by
  rw [List.countP_append, List.countP_append, countP_of_isTableFill test pre hpre htest]
  rfl

theorem count_update (test : Call → Bool) (cs : List Call) (p : Props) (t : Nat) (a b d : Call)
    (htest : ∀ x, Call.isTableFill x = true → test x = false) :
    (cs ++ a :: b :: fillCalls p t ++ [d]).countP test =
      cs.countP test + [a, b, d].countP test := by
  have h0 := countP_of_isTableFill test (fillCalls p t) (fillCalls_isTableFill p t) htest
  simp only [List.countP_append, List.countP_cons, List.countP_nil, h0]
  omega

/-- Once `chart` is set, no event unsets it. -/
theorem chart_stays_set (s : Instance) (evs : List InstanceEvent) (h : s.Sound)
    (hc : s.chart ≠ none) : (s.run evs).chart ≠ none := by
  have h1 := (Instance.run_sound evs s h).2.2 (by
    cases hs : s.chart with
    | none => exact absurd hs hc
    | some c => rfl)
  intro h2
  rw [h2] at h1
  cases h1

/-- The first 'ready' event after the first drawing sets `chart`. -/
theorem chart_set_by_ready (uid : Nat) (p : Props) (ha : drawAborts p = false) :
    ((data uid).run [.draw p, .ready 0]).chart = some 0 := by
  have hd := drawChart_of_chart_null p (data uid) ha rfl
  simp only [Instance.run, List.foldl_cons, List.foldl_nil, Instance.step, hd, Outcome.state]
  simp [fireReady, buildChart, buildDataTable, buildWrapper, addOneTimeListener, data,
    readyListener, getChart]

/-- C2, amended. At every state an instance can reach, a `drawChart` call with
renderable inputs returns normally, and it takes the build path exactly when
`chart` is still null: then it constructs one wrapper and registers one 'ready'
and one 'select' listener, and removes nothing from the table. When `chart` is
set it takes the update path (it empties the table and constructs and registers
nothing), and so does every later call, since `chart` stays set. The first call
always builds, and a 'ready' event between the first and the second call sets
`chart`, so that the build path then runs exactly once. -/
theorem drawChart_builds_while_chart_is_null (uid : Nat) (evs : List InstanceEvent) (p : Props)
    (ha : drawAborts p = false) :
    (∃ s', drawChart p ((data uid).run evs) = .ok s' ∧
      (((data uid).run evs).chart = none →
        s'.count Call.isNewChartWrapper = ((data uid).run evs).count Call.isNewChartWrapper + 1 ∧
        s'.count Call.isAddOneTimeListener =
          ((data uid).run evs).count Call.isAddOneTimeListener + 1 ∧
        s'.count Call.isAddListener = ((data uid).run evs).count Call.isAddListener + 1 ∧
        s'.count Call.isRemove = ((data uid).run evs).count Call.isRemove) ∧
      (((data uid).run evs).chart ≠ none →
        s'.count Call.isNewChartWrapper = ((data uid).run evs).count Call.isNewChartWrapper ∧
        s'.count Call.isAddOneTimeListener =
          ((data uid).run evs).count Call.isAddOneTimeListener ∧
        s'.count Call.isAddListener = ((data uid).run evs).count Call.isAddListener ∧
        s'.count Call.isRemove = ((data uid).run evs).count Call.isRemove + 2 ∧
        ∀ later : List InstanceEvent, (s'.run later).chart ≠ none)) ∧
    (data uid).chart = none ∧
    ((data uid).run [.draw p, .ready 0]).chart ≠ none := by
  refine ⟨?_, rfl, by rw [chart_set_by_ready uid p ha]; simp⟩
  have hs := (Instance.run_sound evs (data uid) (data_sound uid)).1
  generalize (data uid).run evs = s at hs
  cases hc : s.chart with
  | none =>
    obtain ⟨s', t, pre, h1, -, -, -, -, h6, h7⟩ := drawChart_build p s ha hc
    refine ⟨s', h1, fun _ => ?_, fun hne => absurd rfl hne⟩
    simp only [Instance.count, h7]
    refine ⟨?_, ?_, ?_, ?_⟩
    · rw [count_build _ _ _ _ _ _ _ h6 fun x hx => (isTableFill_not_wrapper x hx).1]; rfl
    · rw [count_build _ _ _ _ _ _ _ h6 fun x hx => (isTableFill_not_wrapper x hx).2.1]; rfl
    · rw [count_build _ _ _ _ _ _ _ h6 fun x hx => (isTableFill_not_wrapper x hx).2.2.1]; rfl
    · rw [count_build _ _ _ _ _ _ _ h6 fun x hx => (isTableFill_not_wrapper x hx).2.2.2.1]; rfl
  | some c =>
    obtain ⟨w, wr, hw, -, -⟩ := hs.1 c hc
    obtain ⟨t, ht⟩ := hs.2 w hw
    obtain ⟨s', n, m, h1, h2, -, -, -, -, h7⟩ := drawChart_update p s ha c w t hc hw ht
    obtain ⟨s'', h1', hs', -, -⟩ := drawChart_sound p s hs
    have hs'' : s'.Sound := by
      rw [h1] at h1'
      cases h1'
      exact hs'
    refine ⟨s', h1, fun hn => (by cases hn), fun _ => ?_⟩
    simp only [Instance.count, h7]
    refine ⟨?_, ?_, ?_, ?_, ?_⟩
    · rw [count_update _ _ _ _ _ _ _ fun x hx => (isTableFill_not_wrapper x hx).1]; rfl
    · rw [count_update _ _ _ _ _ _ _ fun x hx => (isTableFill_not_wrapper x hx).2.1]; rfl
    · rw [count_update _ _ _ _ _ _ _ fun x hx => (isTableFill_not_wrapper x hx).2.2.1]; rfl
    · rw [count_update _ _ _ _ _ _ _ fun x hx => (isTableFill_not_wrapper x hx).2.2.2.1]; rfl
    · intro later
      exact chart_stays_set s' later hs'' (by rw [h2]; simp)

/-- C2, amended, on an example: after one drawing and its 'ready' event the
next call takes the update path. -/
theorem drawChart_builds_while_chart_is_null_witness :
    drawAborts lineChartProps = false ∧
    ((∃ s', drawChart lineChartProps ((data 0).run [.draw lineChartProps, .ready 0]) = .ok s' ∧
      (((data 0).run [.draw lineChartProps, .ready 0]).chart = none →
        s'.count Call.isNewChartWrapper =
          ((data 0).run [.draw lineChartProps, .ready 0]).count Call.isNewChartWrapper + 1 ∧
        s'.count Call.isAddOneTimeListener =
          ((data 0).run [.draw lineChartProps, .ready 0]).count Call.isAddOneTimeListener + 1 ∧
        s'.count Call.isAddListener =
          ((data 0).run [.draw lineChartProps, .ready 0]).count Call.isAddListener + 1 ∧
        s'.count Call.isRemove =
          ((data 0).run [.draw lineChartProps, .ready 0]).count Call.isRemove) ∧
      (((data 0).run [.draw lineChartProps, .ready 0]).chart ≠ none →
        s'.count Call.isNewChartWrapper =
          ((data 0).run [.draw lineChartProps, .ready 0]).count Call.isNewChartWrapper ∧
        s'.count Call.isAddOneTimeListener =
          ((data 0).run [.draw lineChartProps, .ready 0]).count Call.isAddOneTimeListener ∧
        s'.count Call.isAddListener =
          ((data 0).run [.draw lineChartProps, .ready 0]).count Call.isAddListener ∧
        s'.count Call.isRemove =
          ((data 0).run [.draw lineChartProps, .ready 0]).count Call.isRemove + 2 ∧
        ∀ later : List InstanceEvent, (s'.run later).chart ≠ none)) ∧
    (data 0).chart = none ∧
    ((data 0).run [.draw lineChartProps, .ready 0]).chart ≠ none) :=
  ⟨by decide, drawChart_builds_while_chart_is_null 0 [.draw lineChartProps, .ready 0]
    lineChartProps (by decide)⟩

/-- C3. `drawChart` returns at once and leaves the instance exactly as it was
(same `chart`, `wrapper` and `dataTable`, no call into the library, no error)
when `columns` is empty or when `rows` is neither empty nor object-like, in
whatever state the instance is. In every other case, at every state an instance
can reach, it returns normally and the calls it has made into the library are
the calls of the build step or of the update step followed by exactly one
`wrapper.draw()`, which is its last call. -/
theorem drawChart_aborts_silently_or_draws_last (uid : Nat) (evs : List InstanceEvent)
    (p : Props) :
    ((p.columns.isEmpty = true ∨ (p.rows.isEmpty = false ∧ p.rows.isObjectLike = false)) →
      ∀ s : Instance, drawChart p s = .ok s) ∧
    (¬ (p.columns.isEmpty = true ∨ (p.rows.isEmpty = false ∧ p.rows.isObjectLike = false)) →
      ∃ s' w step, drawChart p ((data uid).run evs) = .ok s' ∧ s'.wrapper = some w ∧
        s'.calls = ((data uid).run evs).calls ++ step ++ [Call.draw w] ∧
        (∀ c ∈ step, Call.isDraw c = false) ∧
        (step.any Call.isNewChartWrapper || step.any Call.isRemove) = true) := by
  constructor
  · intro h s
    apply drawChart_of_aborts
    rcases h with h | ⟨h1, h2⟩
    · simp [drawAborts, h]
    · simp [drawAborts, h1, h2]
  · intro h
    have ha : drawAborts p = false := by
      simp only [drawAborts]
      cases hc : p.columns.isEmpty <;> cases hr : p.rows.isEmpty <;>
        cases ho : p.rows.isObjectLike <;> simp_all
    have hs := (Instance.run_sound evs (data uid) (data_sound uid)).1
    generalize (data uid).run evs = s at hs
    cases hc : s.chart with
    | none =>
      obtain ⟨s', t, pre, h1, -, -, h4, -, h6, h7⟩ := drawChart_build p s ha hc
      refine ⟨s', s.wrappers.length, pre ++
        [Call.newChartWrapper s.wrappers.length p.chartType t p.options s.chartId,
         Call.addOneTimeListener s.wrappers.length, Call.addListener s.wrappers.length],
        h1, h4, ?_, ?_, ?_⟩
      · rw [h7]; simp
      · intro c hc'
        rcases List.mem_append.1 hc' with hc' | hc'
        · exact (isTableFill_not_wrapper c (h6 c hc')).2.2.2.2.1
        · simp only [List.mem_cons, List.mem_singleton, List.mem_nil_iff, or_false] at hc'
          rcases hc' with rfl | rfl | rfl <;> rfl
      · simp [Call.isNewChartWrapper]
    | some c =>
      obtain ⟨w, wr, hw, -, -⟩ := hs.1 c hc
      obtain ⟨t, ht⟩ := hs.2 w hw
      obtain ⟨s', n, m, h1, -, -, h4, -, -, h7⟩ := drawChart_update p s ha c w t hc hw ht
      refine ⟨s', w, Call.removeRows t 0 n :: Call.removeColumns t 0 m :: fillCalls p t,
        h1, h4, h7, ?_, ?_⟩
      · intro c hc'
        simp only [List.mem_cons] at hc'
        rcases hc' with rfl | rfl | hc'
        · rfl
        · rfl
        · exact (isTableFill_not_wrapper c (fillCalls_isTableFill p t c hc')).2.2.2.2.1
      · simp [Call.isRemove]

/-- C3, on three examples: without columns nothing happens, with a text as rows
nothing happens either, and with the line chart the first call builds and then
draws. -/
theorem drawChart_aborts_silently_or_draws_last_witness :
    (noColumnsProps.columns.isEmpty = true ∨
      (noColumnsProps.rows.isEmpty = false ∧ noColumnsProps.rows.isObjectLike = false)) ∧
    drawChart noColumnsProps (data 0) = .ok (data 0) ∧
    (textRowsProps.columns.isEmpty = true ∨
      (textRowsProps.rows.isEmpty = false ∧ textRowsProps.rows.isObjectLike = false)) ∧
    drawChart textRowsProps ((data 0).run [.draw lineChartProps, .ready 0]) =
      .ok ((data 0).run [.draw lineChartProps, .ready 0]) ∧
    ¬ (lineChartProps.columns.isEmpty = true ∨
      (lineChartProps.rows.isEmpty = false ∧ lineChartProps.rows.isObjectLike = false)) ∧
    ∃ s' w step, drawChart lineChartProps ((data 0).run []) = .ok s' ∧ s'.wrapper = some w ∧
      s'.calls = ((data 0).run []).calls ++ step ++ [Call.draw w] ∧
      (∀ c ∈ step, Call.isDraw c = false) ∧
      (step.any Call.isNewChartWrapper || step.any Call.isRemove) = true :=
  ⟨by decide,
   (drawChart_aborts_silently_or_draws_last 0 [] noColumnsProps).1 (by decide) (data 0),
   by decide,
   (drawChart_aborts_silently_or_draws_last 0 [] textRowsProps).1 (by decide) _,
   by decide,
   (drawChart_aborts_silently_or_draws_last 0 [] lineChartProps).2 (by decide)⟩

/-- C7, the claim as stated fails: with `chartType` missing and renderable
columns and rows, `drawChart` does not skip; it constructs a wrapper, handing it
the missing `chartType`, and draws. -/
theorem drawChart_without_chartType_still_draws :
    untypedChartProps.chartType = .undefined ∧
    ((data 0).run [.draw untypedChartProps]).count Call.isNewChartWrapper = 1 ∧
    ((data 0).run [.draw untypedChartProps]).count Call.isDraw = 1 ∧
    (((data 0).run [.draw untypedChartProps]).wrappers.map
      fun wr => wr.chartType.isEmpty) = [true] := by
  refine ⟨rfl, by decide, by decide, by decide⟩

/-- C7, amended. The test at the top of `drawChart` looks at `columns` and
`rows` only. Whenever these are renderable, a call made with `chartType`
missing returns normally at every state an instance can reach, and makes
exactly one more `wrapper.draw()` call, as its last call. -/
theorem drawChart_does_not_check_chartType (uid : Nat) (evs : List InstanceEvent) (p : Props)
    (ha : drawAborts p = false) :
    drawAborts { p with chartType := .undefined } = false ∧
    ∃ s' w, drawChart { p with chartType := .undefined } ((data uid).run evs) = .ok s' ∧
      s'.calls.getLast? = some (Call.draw w) ∧
      s'.count Call.isDraw = ((data uid).run evs).count Call.isDraw + 1 := by
  have ha' : drawAborts { p with chartType := .undefined } = false := ha
  refine ⟨ha', ?_⟩
  have hs := (Instance.run_sound evs (data uid) (data_sound uid)).1
  generalize (data uid).run evs = s at hs
  cases hc : s.chart with
  | none =>
    obtain ⟨s', t, pre, h1, -, -, -, -, h6, h7⟩ := drawChart_build _ s ha' hc
    refine ⟨s', s.wrappers.length, h1, ?_, ?_⟩
    · rw [h7]; simp
    · simp only [Instance.count, h7]
      rw [count_build _ _ _ _ _ _ _ h6 fun x hx => (isTableFill_not_wrapper x hx).2.2.2.2.1]
      rfl
  | some c =>
    obtain ⟨w, wr, hw, -, -⟩ := hs.1 c hc
    obtain ⟨t, ht⟩ := hs.2 w hw
    obtain ⟨s', n, m, h1, -, -, -, -, -, h7⟩ := drawChart_update _ s ha' c w t hc hw ht
    refine ⟨s', w, h1, ?_, ?_⟩
    · rw [h7]; exact List.getLast?_concat _
    · simp only [Instance.count, h7]
      rw [count_update _ _ _ _ _ _ _ fun x hx => (isTableFill_not_wrapper x hx).2.2.2.2.1]
      rfl

/-- C7, amended, on an example: the line chart without its `chartType`. -/
theorem drawChart_does_not_check_chartType_witness :
    drawAborts lineChartProps = false ∧
    (drawAborts { lineChartProps with chartType := .undefined } = false ∧
      ∃ s' w, drawChart { lineChartProps with chartType := .undefined } ((data 0).run []) =
          .ok s' ∧
        s'.calls.getLast? = some (Call.draw w) ∧
        s'.count Call.isDraw = ((data 0).run []).count Call.isDraw + 1) :=
  ⟨by decide, drawChart_does_not_check_chartType 0 [] lineChartProps (by decide)⟩

/-! ### The container id handed to the wrapper -/

theorem filterMap_containerId_of_isTableFill (pre : List Call)
    (hpre : ∀ c ∈ pre, Call.isTableFill c = true) : pre.filterMap Call.containerId? = [] := by
  rw [List.filterMap_eq_nil_iff]
  intro c hc
  exact (isTableFill_not_wrapper c (hpre c hc)).2.2.2.2.2

theorem drawChart_containerIds (p : Props) (s s' : Instance) (h : s.Sound)
    (hd : drawChart p s = .ok s')
    (hj : s.calls.filterMap Call.containerId? =
      List.replicate (s.count Call.isNewChartWrapper) s.chartId) :
    s'.calls.filterMap Call.containerId? =
      List.replicate (s'.count Call.isNewChartWrapper) s.chartId := by
  cases ha : drawAborts p with
  | true =>
    rw [drawChart_of_aborts p s ha] at hd
    cases hd
    exact hj
  | false =>
    cases hc : s.chart with
    | none =>
      obtain ⟨s'', t, pre, h1, -, -, -, -, h6, h7⟩ := drawChart_build p s ha hc
      rw [h1] at hd
      cases hd
      simp only [Instance.count, h7]
      rw [count_build _ _ _ _ _ _ _ h6 fun x hx => (isTableFill_not_wrapper x hx).1]
      simp only [List.filterMap_append, filterMap_containerId_of_isTableFill pre h6,
        List.append_nil]
      rw [hj]
      exact (List.replicate_succ' _ _).symm
    | some c =>
      obtain ⟨w, wr, hw, -, -⟩ := h.1 c hc
      obtain ⟨t, ht⟩ := h.2 w hw
      obtain ⟨s'', n, m, h1, -, -, -, -, -, h7⟩ := drawChart_update p s ha c w t hc hw ht
      rw [h1] at hd
      cases hd
      simp only [Instance.count, h7]
      rw [count_update _ _ _ _ _ _ _ fun x hx => (isTableFill_not_wrapper x hx).1]
      have hf := filterMap_containerId_of_isTableFill _ (fillCalls_isTableFill p t)
      simp only [List.filterMap_append, List.filterMap_cons, Call.containerId?, hf,
        List.filterMap_nil, List.append_nil]
      rw [hj]
      rfl

theorem Instance.run_containerIds (evs : List InstanceEvent) (s : Instance) (h : s.Sound)
    (hj : s.calls.filterMap Call.containerId? =
      List.replicate (s.count Call.isNewChartWrapper) s.chartId) :
    (s.run evs).calls.filterMap Call.containerId? =
      List.replicate ((s.run evs).count Call.isNewChartWrapper) s.chartId := by
  induction evs generalizing s with
  | nil => exact hj
  | cons e evs ih =>
    obtain ⟨h1, h2, -⟩ := Instance.step_sound s e h
    rw [Instance.run_event_cons, ← h2]
    apply ih _ h1
    rw [h2]
    cases e with
    | draw p =>
      obtain ⟨s', hd, -, -, -⟩ := drawChart_sound p s h
      simp only [Instance.step, hd, Outcome.state]
      exact drawChart_containerIds p s s' h hd hj
    | ready w =>
      simp only [Instance.step, Instance.count, (fireReady_spec w s).2.2.2.2]
      exact hj

theorem append_left_injective (x a b : String) (h : x ++ a = x ++ b) : a = b := by
  have h1 : (x ++ a).data = (x ++ b).data := by rw [h]
  rw [String.data_append, String.data_append] at h1
  exact String.ext (List.append_cancel_left h1)

/-- C9. Two instances with distinct unique identifiers have distinct container
ids; a container id starts with the character `X`, which is not a digit (so the
id is not empty); and whatever happens to an instance, the container id handed
to every wrapper it constructs is its `chartId`. -/
theorem chartId_unique_and_handed_to_wrapper (a b : Nat) (evs : List InstanceEvent)
    (h : a ≠ b) :
    (data a).chartId ≠ (data b).chartId ∧
    (data a).chartId.data.head? = some 'X' ∧ 'X'.isDigit = false ∧
    ((data a).run evs).calls.filterMap Call.containerId? =
      List.replicate (((data a).run evs).count Call.isNewChartWrapper) (data a).chartId := by
  refine ⟨?_, ?_, by decide, Instance.run_containerIds evs (data a) (data_sound a) rfl⟩
  · intro he
    exact h (repr_injective a b (append_left_injective "X" _ _ he))
  · show ("X" ++ toString a).data.head? = some 'X'
    rw [String.data_append]
    rfl

/-- C9, on an example: instances 1 and 2, the first drawn twice before its
'ready' event. -/
theorem chartId_unique_and_handed_to_wrapper_witness :
    (1 : Nat) ≠ 2 ∧
    ((data 1).chartId ≠ (data 2).chartId ∧
      (data 1).chartId.data.head? = some 'X' ∧ 'X'.isDigit = false ∧
      ((data 1).run [.draw lineChartProps, .draw lineChartProps]).calls.filterMap
          Call.containerId? =
        List.replicate
          (((data 1).run [.draw lineChartProps, .draw lineChartProps]).count
            Call.isNewChartWrapper)
          (data 1).chartId) :=
  ⟨by decide, chartId_unique_and_handed_to_wrapper 1 2
    [.draw lineChartProps, .draw lineChartProps] (by decide)⟩

/-! ### The update of the data table -/

theorem foldl_addColumn (vs : List JSVal) (t : DataTable) :
    vs.foldl (fun acc v => acc.addColumn v) t = { t with columns := t.columns ++ vs } := by
  induction vs generalizing t with
  | nil => simp
  | cons v vs ih =>
    rw [List.foldl_cons, ih]
    simp [DataTable.addColumn]

theorem fillTable_new_columns (p : Props) :
    (fillTable p DataTable.new).columns = p.columns.eachValues := by
  simp only [fillTable, foldl_addColumn, DataTable.new, List.nil_append]
  split
  · cases p.rows <;> rfl
  · rfl

theorem fillTable_new_rows_of_isEmpty (p : Props) (h : p.rows.isEmpty = true) :
    (fillTable p DataTable.new).rows = [] := by
  simp [fillTable, foldl_addColumn, DataTable.new, h]

theorem fillTable_new_of_arrays (p : Props) (cs rs : List JSVal) (hc : p.columns = .arr cs)
    (hr : p.rows = .arr rs) : fillTable p DataTable.new = { columns := cs, rows := rs } := by
  cases rs with
  | nil => simp [fillTable, foldl_addColumn, DataTable.new, hc, hr, JSVal.isEmpty,
      JSVal.eachValues]
  | cons r rs => simp [fillTable, foldl_addColumn, DataTable.new, hc, hr, JSVal.isEmpty,
      JSVal.eachValues, DataTable.addRows]

theorem clear_table (prior : DataTable) :
    DataTable.removeColumns 0
        (DataTable.removeRows 0 prior.getNumberOfRows prior).getNumberOfColumns
        (DataTable.removeRows 0 prior.getNumberOfRows prior) = DataTable.new := by
  simp [DataTable.removeColumns, DataTable.removeRows, DataTable.getNumberOfRows,
    DataTable.getNumberOfColumns, DataTable.new]

/-- C4. Whatever the owned data table held before, `updateDataTable` returns
normally and leaves in it what a fresh table filled from the current inputs
holds: the values of `columns` as its columns, in order, and no row when `rows`
is empty; for an array of columns and an array of rows the table holds exactly
these columns and exactly these rows, in order. Nothing of the prior content
remains. -/
theorem updateDataTable_replaces_content (p : Props) (s : Instance) (t : Nat)
    (prior : DataTable) (ht : s.dataTable = .table t) (hp : s.tables[t]? = some prior) :
    ∃ s', updateDataTable p s = .ok s' ∧ s'.dataTable = .table t ∧
      s'.tables[t]? = some (fillTable p DataTable.new) ∧
      (fillTable p DataTable.new).columns = p.columns.eachValues ∧
      (p.rows.isEmpty = true → (fillTable p DataTable.new).rows = []) ∧
      (∀ cs rs : List JSVal, p.columns = .arr cs → p.rows = .arr rs →
        s'.tables[t]? = some { columns := cs, rows := rs }) := by
  have hlt : t < s.tables.length := by
    rcases Nat.lt_or_ge t s.tables.length with h | h
    · exact h
    · rw [List.getElem?_eq_none h] at hp; cases hp
  have hget : (s.tables.set t (fillTable p DataTable.new))[t]? =
      some (fillTable p DataTable.new) := by
    rw [List.getElem?_set]
    simp [hlt]
  have hu : ∃ calls, updateDataTable p s =
      .ok { s with tables := s.tables.set t (fillTable p DataTable.new), calls := calls } := by
    simp only [updateDataTable, ht, hp, Option.getD_some, clear_table]
    exact ⟨_, rfl⟩
  obtain ⟨calls, hu⟩ := hu
  refine ⟨_, hu, ht, hget, fillTable_new_columns p, fillTable_new_rows_of_isEmpty p, ?_⟩
  intro cs rs hc hr
  rw [← fillTable_new_of_arrays p cs rs hc hr]
  exact hget

/-- C4, on the example of the claim: built with two columns and one row, then
updated with the single column `C` and no row, the table holds the column `C`
and no row. -/
theorem updateDataTable_replaces_content_witness :
    ((data 0).run [.draw lineChartProps, .ready 0]).dataTable = .table 0 ∧
    ((data 0).run [.draw lineChartProps, .ready 0]).tables[0]? =
      some { columns := [.obj [("type", .str "string"), ("label", .str "Year")],
                         .obj [("type", .str "number"), ("label", .str "Sales")]],
             rows := [.arr [.str "2004", .num 1000]] } ∧
    ∃ s', updateDataTable oneColumnProps ((data 0).run [.draw lineChartProps, .ready 0]) =
        .ok s' ∧ s'.dataTable = .table 0 ∧
      s'.tables[0]? = some (fillTable oneColumnProps DataTable.new) ∧
      (fillTable oneColumnProps DataTable.new).columns = oneColumnProps.columns.eachValues ∧
      (oneColumnProps.rows.isEmpty = true → (fillTable oneColumnProps DataTable.new).rows = []) ∧
      (∀ cs rs : List JSVal, oneColumnProps.columns = .arr cs → oneColumnProps.rows = .arr rs →
        s'.tables[0]? = some { columns := cs, rows := rs }) :=
  ⟨rfl, rfl, updateDataTable_replaces_content oneColumnProps
    ((data 0).run [.draw lineChartProps, .ready 0]) 0 _ rfl rfl⟩

/-! ## The mount hook -/

theorem Precedes.concat {a b : Obs} {l : List Obs} (h : Precedes a b l) (x : Obs)
    (hx : x = b → a ∈ l) : Precedes a b (l ++ [x]) := by
  intro h1 h2 heq
  rcases List.eq_nil_or_concat h2 with rfl | ⟨h2', y, rfl⟩
  · have h3 : l ++ [x] = h1 ++ [b] := heq
    obtain ⟨h4, h5⟩ := List.append_inj' h3 rfl
    rw [← h4]
    exact hx (by simpa using h5)
  · have h3 : l ++ [x] = (h1 ++ b :: h2') ++ [y] := by
      rw [heq]; simp
    obtain ⟨h4, -⟩ := List.append_inj' h3 rfl
    exact h h1 h2' h4

theorem Precedes.nil (a b : Obs) : Precedes a b [] := by
  intro h1 h2 heq
  cases h1 <;> cases heq

theorem Page.run_step_cons (pg : Page) (e : PageEvent) (evs : List PageEvent) :
    pg.run (e :: evs) = (pg.step e).run evs := rfl

theorem Page.init_inv (vm : Instance) : (Page.init vm).Inv := by
  refine ⟨?_, ?_, ?_, Precedes.nil _ _, Precedes.nil _ _, Precedes.nil _ _⟩
  · simp [Page.init, Page.chain]
  · simp [Page.init, Loader.init, makeDeferred]
  · simp [Page.init, Loader.init, makeDeferred]

theorem loadCharts_promise (packages version : JSVal) (l : Loader) :
    (loadCharts packages version l).google_promise = l.google_promise := by
  simp only [loadCharts]
  split <;> rfl

theorem bind_mem_of_watchers (pg : Page) (h : pg.Inv) (hw : pg.watchers ≠ []) :
    Obs.bind ∈ pg.history := by
  have h1 := h.1
  have hmem : ∀ o, o ∈ pg.chain → o ∈ pg.history := fun o ho => (List.mem_filter.1 ho).1
  cases hb : pg.boot <;> simp only [hb] at h1
  · exact absurd h1.2 hw
  · exact absurd h1.2 hw
  · exact absurd h1.2 hw
  · exact hmem _ (by rw [h1]; simp)
  · exact absurd h1.2 hw

theorem Page.step_inv (pg : Page) (e : PageEvent) (h : pg.Inv) : (pg.step e).Inv := by
  obtain ⟨h1, h2, h3, h4, h5, h6⟩ := h
  cases e with
  | mount p =>
    cases hb : pg.boot with
    | unmounted =>
      simp only [hb] at h1
      simp only [Page.step, hb, ready]
      refine ⟨?_, ?_, ?_, h4.concat _ (by simp), h5.concat _ (by simp), h6.concat _ (by simp)⟩
      · have hc : pg.chain = [] := h1.1
        simp only [Page.chain] at hc ⊢
        simp [hc, h1.2, Obs.isChainStep]
      · simpa [loadCharts_promise] using h2
      · simpa [loadCharts_promise] using h3
    | awaitingLoad => simpa only [Page.step, hb] using ⟨hb ▸ h1, h2, h3, h4, h5, h6⟩
    | awaitingBind => simpa only [Page.step, hb] using ⟨hb ▸ h1, h2, h3, h4, h5, h6⟩
    | bound => simpa only [Page.step, hb] using ⟨hb ▸ h1, h2, h3, h4, h5, h6⟩
    | failed => simpa only [Page.step, hb] using ⟨hb ▸ h1, h2, h3, h4, h5, h6⟩
  | loader ev =>
    simp only [Page.step]
    have hp := Loader.step_promise pg.loader ev
    have hnew : (pg.loader.step ev).google_promise ≠ .rejected ∧
        (pg.loader.google_promise = .resolved → (pg.loader.step ev).google_promise = .resolved) := by
      rcases hp with hp | ⟨-, hp⟩
      · rw [hp]; exact ⟨h2, id⟩
      · rw [hp]
        cases hq : pg.loader.google_promise with
        | pending => exact ⟨by decide, fun _ => rfl⟩
        | resolved => exact ⟨by decide, fun _ => rfl⟩
        | rejected => exact absurd hq h2
    by_cases hcond : pg.loader.google_promise = .pending ∧
        (pg.loader.step ev).google_promise = .resolved
    · simp only [hcond, and_self, if_true]
      refine ⟨?_, hnew.1, ?_, h4.concat _ (by simp), h5.concat _ (by simp),
        h6.concat _ (by simp)⟩
      · simpa [Page.chain, Obs.isChainStep] using h1
      · simp [hcond.2]
    · simp only [hcond, if_false, List.append_nil]
      refine ⟨h1, hnew.1, ?_, h4, h5, h6⟩
      show Obs.loadComplete ∈ pg.history ↔ _
      rw [h3]
      constructor
      · exact hnew.2
      · intro hr
        cases hq : pg.loader.google_promise with
        | pending => exact absurd ⟨hq, hr⟩ hcond
        | resolved => rfl
        | rejected => exact absurd hq h2
  | job p =>
    simp only [Page.step, chainJob]
    cases hb : pg.boot with
    | unmounted => simpa only [hb] using ⟨hb ▸ h1, h2, h3, h4, h5, h6⟩
    | awaitingLoad =>
      simp only [hb] at h1
      simp only
      cases hq : pg.loader.google_promise with
      | pending =>
        simp only
        exact ⟨by simpa only [hb] using h1, h2, h3, h4, h5, h6⟩
      | rejected => exact absurd hq h2
      | resolved =>
        have hl : Obs.loadComplete ∈ pg.history := h3.2 hq
        have hc : pg.chain = [.request] := h1.1
        simp only [Page.chain] at hc
        simp only
        cases hd : drawChart p pg.vm with
        | ok vm =>
          simp only
          refine ⟨?_, by simpa using h2, ?_, h4.concat _ (fun _ => hl),
            h5.concat _ (by simp), h6.concat _ (by simp)⟩
          · simp [Page.chain, hc, h1.2, Obs.isChainStep]
          · simpa using h3
        | error err =>
          obtain ⟨err1, vm⟩ := err
          simp only
          refine ⟨?_, by simpa using h2, ?_, h4.concat _ (by simp),
            h5.concat _ (fun _ => hl), h6.concat _ (by simp)⟩
          · simp [Page.chain, hc, h1.2, Obs.isChainStep]
          · simpa using h3
    | awaitingBind =>
      simp only [hb] at h1
      have hc : pg.chain = [.request, .drawReturned] := h1.1
      simp only [Page.chain] at hc
      simp only
      refine ⟨?_, by simpa using h2, ?_, h4.concat _ (by simp), h5.concat _ (by simp),
        h6.concat _ (by simp)⟩
      · simp [Page.chain, hc, Obs.isChainStep]
      · simpa using h3
    | bound => simpa only [hb] using ⟨hb ▸ h1, h2, h3, h4, h5, h6⟩
    | failed => simpa only [hb] using ⟨hb ▸ h1, h2, h3, h4, h5, h6⟩
  | wrapperReady w => exact ⟨h1, h2, h3, h4, h5, h6⟩
  | propChanged attr p =>
    simp only [Page.step]
    split
    · rename_i hany
      have hw : pg.watchers ≠ [] := by
        intro hnil
        rw [hnil] at hany
        simp at hany
      have hbind := bind_mem_of_watchers pg ⟨h1, h2, h3, h4, h5, h6⟩ hw
      refine ⟨?_, h2, ?_, h4.concat _ (by simp), h5.concat _ (by simp),
        h6.concat _ (fun _ => hbind)⟩
      · simpa [Page.chain, Obs.isChainStep] using h1
      · simpa using h3
    · exact ⟨h1, h2, h3, h4, h5, h6⟩

theorem Page.run_inv (evs : List PageEvent) (pg : Page) (h : pg.Inv) : (pg.run evs).Inv := by
  induction evs generalizing pg with
  | nil => exact h
  | cons e evs ih => exact ih _ (Page.step_inv pg e h)

theorem Precedes.append {a b : Obs} {l : List Obs} (h : Precedes a b l) (xs : List Obs)
    (hx : ∀ x ∈ xs, x = b → a ∈ l) : Precedes a b (l ++ xs) := by
  induction xs generalizing l with
  | nil => simpa using h
  | cons x xs ih =>
    have h1 : l ++ x :: xs = (l ++ [x]) ++ xs := by simp
    rw [h1]
    apply ih (h.concat x (hx x (List.mem_cons_self x xs)))
    intro y hy hyb
    exact List.mem_append_left _ (hx y (List.mem_cons_of_mem x hy) hyb)

/-- What one event does to the loader and to the history of a page. -/
theorem Page.step_spec (pg : Page) (e : PageEvent) :
    ∃ xs, (pg.step e).history = pg.history ++ xs ∧
      (∀ l, e = .loader l → (pg.step e).loader = pg.loader.step l ∧ (pg.step e).boot = pg.boot ∧
        (Obs.loadComplete ∈ xs → pg.loader.google_promise = .pending ∧
          (pg.loader.step l).google_promise = .resolved)) ∧
      ((∀ l, e ≠ .loader l) →
        (pg.step e).loader.google_promise = pg.loader.google_promise ∧
        Obs.loadComplete ∉ xs ∧
        (Obs.request ∈ xs ∨
          ((pg.step e).boot = pg.boot ∧ (pg.step e).loader = pg.loader) ∨
          pg.boot ≠ .unmounted)) := by
  cases e with
  | mount p =>
    cases hb : pg.boot <;>
      simp [Page.step, hb, ready, loadCharts_promise]
  | loader l =>
    simp only [Page.step]
    refine ⟨_, rfl, ?_, ?_⟩
    · intro l' hl
      cases hl
      refine ⟨rfl, trivial, ?_⟩
      split
      · rename_i hc; exact fun _ => hc
      · intro hm; cases hm
    · intro hne
      exact absurd rfl (hne l)
  | job p =>
    simp only [Page.step, chainJob]
    cases hb : pg.boot with
    | unmounted => exact ⟨[], by simp, by simp, by simp [hb]⟩
    | awaitingLoad =>
      simp only
      cases hq : pg.loader.google_promise with
      | pending => exact ⟨[], by simp, by simp, by simp [hq, hb]⟩
      | rejected => exact ⟨[], by simp, by simp, by simp [hq, hb]⟩
      | resolved =>
        simp only
        cases hd : drawChart p pg.vm with
        | ok vm => exact ⟨[.drawReturned], by simp, by simp, by simp [hq, hb]⟩
        | error err => exact ⟨[.drawThrew], by simp, by simp, by simp [hq, hb]⟩
    | awaitingBind => exact ⟨[.bind], by simp, by simp, by simp [hb]⟩
    | bound => exact ⟨[], by simp, by simp, by simp [hb]⟩
    | failed => exact ⟨[], by simp, by simp, by simp [hb]⟩
  | wrapperReady w => exact ⟨[], by simp [Page.step], by simp, by simp [Page.step]⟩
  | propChanged attr p =>
    simp only [Page.step]
    split
    · exact ⟨[.watcherDraw], by simp, by simp, by simp⟩
    · exact ⟨[], by simp, by simp, by simp⟩

/-- Without a run of Google's callback the promise stays pending. -/
theorem Page.run_pending (evs : List PageEvent) (pg : Page)
    (hp : pg.loader.google_promise = .pending)
    (hno : evs.any PageEvent.isGoogleLoaded = false) :
    (pg.run evs).loader.google_promise = .pending := by
  induction evs generalizing pg with
  | nil => exact hp
  | cons e evs ih =>
    rw [List.any_cons, Bool.or_eq_false_iff] at hno
    rw [Page.run_step_cons]
    apply ih _ _ hno.2
    obtain ⟨xs, -, hl, hn⟩ := Page.step_spec pg e
    by_cases he : ∃ l, e = .loader l
    · obtain ⟨l, rfl⟩ := he
      rw [(hl l rfl).1]
      rcases Loader.step_promise pg.loader l with h | ⟨hg, -⟩
      · rw [h]; exact hp
      · cases l <;> simp [LoaderEvent.isGoogleLoaded] at hg
        simp [PageEvent.isGoogleLoaded] at hno
    · rw [(hn fun l hl => he ⟨l, hl⟩).1]
      exact hp

theorem Page.step_request_first (pg : Page) (e : PageEvent) (hno : e.isOtherCall = false)
    (hk : Obs.request ∈ pg.history ∨ (pg.boot = .unmounted ∧ pg.loader.Consistent ∧
      (pg.loader.is_loading || pg.loader.is_loaded) = false))
    (hp : Precedes .request .loadComplete pg.history) :
    (Obs.request ∈ (pg.step e).history ∨ ((pg.step e).boot = .unmounted ∧
      (pg.step e).loader.Consistent ∧
      ((pg.step e).loader.is_loading || (pg.step e).loader.is_loaded) = false)) ∧
    Precedes .request .loadComplete (pg.step e).history := by
  obtain ⟨xs, hx, hl, hn⟩ := Page.step_spec pg e
  rw [hx]
  by_cases he : ∃ l, e = .loader l
  · obtain ⟨l, rfl⟩ := he
    obtain ⟨h1, h2, h3⟩ := hl l rfl
    have hcall : l.isCall = false := by
      cases l <;> simp_all [PageEvent.isOtherCall, LoaderEvent.isCall]
    rcases hk with hk | ⟨hb, hc, hi⟩
    · exact ⟨Or.inl (List.mem_append_left _ hk), hp.append xs fun _ _ _ => hk⟩
    · have hstep := Loader.step_idle pg.loader l hc hi hcall
      refine ⟨Or.inr ⟨by rw [h2]; exact hb, by rw [h1, hstep]; exact hc,
        by rw [h1, hstep]; exact hi⟩, hp.append xs ?_⟩
      intro x hxm hxe
      rw [hxe] at hxm
      obtain ⟨h4, h5⟩ := h3 hxm
      rw [hstep, h4] at h5
      cases h5
  · obtain ⟨-, h2, h3⟩ := hn fun l hl => he ⟨l, hl⟩
    refine ⟨?_, hp.append xs fun x hxm hxe => absurd (hxe ▸ hxm) h2⟩
    rcases hk with hk | ⟨hb, hc, hi⟩
    · exact Or.inl (List.mem_append_left _ hk)
    · rcases h3 with h3 | ⟨h3, h4⟩ | h3
      · exact Or.inl (List.mem_append_right _ h3)
      · exact Or.inr ⟨by rw [h3]; exact hb, by rw [h4]; exact hc, by rw [h4]; exact hi⟩
      · exact absurd hb h3

theorem Page.run_request_first (evs : List PageEvent) (pg : Page)
    (hno : evs.any PageEvent.isOtherCall = false)
    (hk : Obs.request ∈ pg.history ∨ (pg.boot = .unmounted ∧ pg.loader.Consistent ∧
      (pg.loader.is_loading || pg.loader.is_loaded) = false))
    (hp : Precedes .request .loadComplete pg.history) :
    Precedes .request .loadComplete (pg.run evs).history := by
  induction evs generalizing pg with
  | nil => exact hp
  | cons e evs ih =>
    rw [List.any_cons, Bool.or_eq_false_iff] at hno
    obtain ⟨h1, h2⟩ := Page.step_request_first pg e hno.1 hk hp
    exact ih _ hno.2 h1 h2

theorem mem_chain (pg : Page) (o : Obs) (ho : o.isChainStep = true) :
    o ∈ pg.history ↔ o ∈ pg.chain := by
  simp [Page.chain, List.mem_filter, ho]

/-- The chain of a page that satisfies the invariant. -/
theorem Page.chain_cases (pg : Page) (h : pg.Inv) :
    (pg.chain = [] ∨ pg.chain = [.request] ∨ pg.chain = [.request, .drawReturned] ∨
      pg.chain = [.request, .drawReturned, .bind] ∨ pg.chain = [.request, .drawThrew]) ∧
    (Obs.bind ∈ pg.history → Obs.drawReturned ∈ pg.history) ∧
    (Obs.drawThrew ∈ pg.history → Obs.bind ∉ pg.history ∧ pg.watchers = []) := by
  have h1 := h.1
  rw [mem_chain pg .bind rfl, mem_chain pg .drawReturned rfl, mem_chain pg .drawThrew rfl]
  cases hb : pg.boot <;> simp only [hb] at h1
  · simp [h1.1]
  · simp [h1.1]
  · simp [h1.1]
  · simp [h1]
  · rcases h1 with ⟨h1 | h1, h2⟩ <;> simp [h1, h2]

/-- C8, the claim as stated fails: when another component has loaded the library
before this instance is mounted, `loadCharts` hands back the promise that is
already resolved, and the load completion comes before the request of this
instance, not after it. -/
theorem ready_after_foreign_load_sees_completion_first :
    ((Page.init (data 0)).run lateMountTrace).history =
      [.loadComplete, .request, .drawReturned, .bind] ∧
    ¬ Precedes .request .loadComplete ((Page.init (data 0)).run lateMountTrace).history := by
  have hh : ((Page.init (data 0)).run lateMountTrace).history =
      [.loadComplete, .request, .drawReturned, .bind] := by decide
  refine ⟨hh, fun hp => ?_⟩
  have hm := hp [] [.request, .drawReturned, .bind] hh
  cases hm

/-- C8, amended. Whatever the state of the instance at mount and whatever happens
on the page, the steps of the chain of `ready` are seen in the order: `loadCharts`
request, first `drawChart` call, `propsBinder`; a `drawChart` call of the chain
is seen only after the load has completed; an observer calls `drawChart` only
after `propsBinder`, and observers exist only after `propsBinder`. If Google's
callback never runs, or if the first `drawChart` call throws, `propsBinder` is
never called and no observer exists. The load completes only after the request
when no other component calls `loadCharts`; otherwise it may complete before. -/
theorem ready_binds_after_load_and_first_draw (vm : Instance) (evs : List PageEvent) :
    (((Page.init vm).run evs).chain = [] ∨
      ((Page.init vm).run evs).chain = [.request] ∨
      ((Page.init vm).run evs).chain = [.request, .drawReturned] ∨
      ((Page.init vm).run evs).chain = [.request, .drawReturned, .bind] ∨
      ((Page.init vm).run evs).chain = [.request, .drawThrew]) ∧
    Precedes .loadComplete .drawReturned ((Page.init vm).run evs).history ∧
    Precedes .loadComplete .drawThrew ((Page.init vm).run evs).history ∧
    Precedes .bind .watcherDraw ((Page.init vm).run evs).history ∧
    (((Page.init vm).run evs).watchers ≠ [] → Obs.bind ∈ ((Page.init vm).run evs).history) ∧
    (evs.any PageEvent.isGoogleLoaded = false →
      Obs.drawReturned ∉ ((Page.init vm).run evs).history ∧
      Obs.bind ∉ ((Page.init vm).run evs).history ∧
      ((Page.init vm).run evs).watchers = []) ∧
    (Obs.drawThrew ∈ ((Page.init vm).run evs).history →
      Obs.bind ∉ ((Page.init vm).run evs).history ∧ ((Page.init vm).run evs).watchers = []) ∧
    (evs.any PageEvent.isOtherCall = false →
      Precedes .request .loadComplete ((Page.init vm).run evs).history) := by
  have hinv := Page.run_inv evs _ (Page.init_inv vm)
  obtain ⟨hc1, hc2, hc3⟩ := Page.chain_cases _ hinv
  refine ⟨hc1, hinv.2.2.2.1, hinv.2.2.2.2.1, hinv.2.2.2.2.2, bind_mem_of_watchers _ hinv,
    ?_, hc3, ?_⟩
  · intro hno
    have hpend := Page.run_pending evs (Page.init vm) rfl hno
    have hnl : Obs.loadComplete ∉ ((Page.init vm).run evs).history := by
      rw [hinv.2.2.1, hpend]
      decide
    have hnd : Obs.drawReturned ∉ ((Page.init vm).run evs).history := by
      intro hd
      obtain ⟨h1, h2, heq⟩ := List.append_of_mem hd
      have := hinv.2.2.2.1 h1 h2 heq
      exact hnl (by rw [heq]; exact List.mem_append_left _ this)
    have hnb : Obs.bind ∉ ((Page.init vm).run evs).history := fun hb => hnd (hc2 hb)
    refine ⟨hnd, hnb, ?_⟩
    by_contra hw
    exact hnb (bind_mem_of_watchers _ hinv hw)
  · intro hno
    exact Page.run_request_first evs (Page.init vm) hno
      (Or.inr ⟨rfl, Loader.init_consistent, rfl⟩) (Precedes.nil _ _)

/-- C8, on three examples: a load that fails (no drawing, no observer), a first
drawing that throws (no observer), and a run that goes through (the load
completes after the request, the six observers exist after `propsBinder`). -/
theorem ready_binds_after_load_and_first_draw_witness :
    (failedLoadTrace.any PageEvent.isGoogleLoaded = false ∧
      Obs.drawReturned ∉ ((Page.init (data 0)).run failedLoadTrace).history ∧
      Obs.bind ∉ ((Page.init (data 0)).run failedLoadTrace).history ∧
      ((Page.init (data 0)).run failedLoadTrace).watchers = []) ∧
    (Obs.drawThrew ∈ ((Page.init brokenInstance).run loadedTrace).history ∧
      Obs.bind ∉ ((Page.init brokenInstance).run loadedTrace).history ∧
      ((Page.init brokenInstance).run loadedTrace).watchers = []) ∧
    (((Page.init (data 0)).run loadedTrace).watchers ≠ [] ∧
      Obs.bind ∈ ((Page.init (data 0)).run loadedTrace).history) ∧
    (loadedTrace.any PageEvent.isOtherCall = false ∧
      Precedes .request .loadComplete ((Page.init (data 0)).run loadedTrace).history) :=
  ⟨⟨by decide,
    (ready_binds_after_load_and_first_draw (data 0) failedLoadTrace).2.2.2.2.2.1 (by decide)⟩,
   ⟨by decide,
    (ready_binds_after_load_and_first_draw brokenInstance loadedTrace).2.2.2.2.2.2.1
      (by decide)⟩,
   ⟨by decide,
    (ready_binds_after_load_and_first_draw (data 0) loadedTrace).2.2.2.2.1 (by decide)⟩,
   ⟨by decide,
    (ready_binds_after_load_and_first_draw (data 0) loadedTrace).2.2.2.2.2.2.2 (by decide)⟩⟩

/-- The example run that goes through, in full. -/
theorem loadedTrace_history :
    ((Page.init (data 0)).run loadedTrace).history =
      [.request, .loadComplete, .drawReturned, .bind] ∧
    ((Page.init (data 0)).run loadedTrace).watchers =
      propsBinder (deleteProp "bounds" props) := by
  constructor <;> decide

end VueCharts
